import Mathlib

/-!
Verification development for the SongLines music-metadata reconciliation core.

The definitions below are shallow embeddings of the TypeScript sources:
  * `src/types/music.ts`            — entity / relationship data model
  * `src/services/trackCache.ts`    — persistent LRU+TTL track cache
  * `src/services/musicbrainz.ts`   — matching, scoring, alias resolution,
                                      graph assembly and credit merging
  * `music-graph/src/services/discogs.ts` — supplemental credits source

JavaScript strings are modelled as Lean `String`, numbers as `Nat`/`Int`,
`undefined`-able fields as `Option`, JS `Set`/`Map` as lists used as sets /
association lists (first binding wins, as for `Map.get` after `Map.set`
overwrites), and `localStorage` as an explicit store value threaded through
the operations.  Asynchronous fetches are modelled by passing the decoded
response (or a response stream) as an argument.
-/

set_option autoImplicit false

namespace SongLines

/-! ## Character-level helpers for the JS string operations -/

/-- JS `\w` character class (ASCII word character). -/
def isWordChar (c : Char) : Bool :=
  (('a' ≤ c && c ≤ 'z') || ('A' ≤ c && c ≤ 'Z') || ('0' ≤ c && c ≤ '9') || c = '_')

/-- JS `\s` character class (whitespace), restricted to the ASCII whitespace
characters that occur in the strings this system handles. -/
def isSpaceChar (c : Char) : Bool :=
  (c = ' ' || c = '\t' || c = '\n' || c = '\x0d' || c = '\x0c' || c = '\x0b')

/-- ASCII lower-casing, the effect of JS `toLowerCase` on the inputs here. -/
def lowerChar (c : Char) : Char :=
  if 'A' ≤ c && c ≤ 'Z' then Char.ofNat (c.toNat + 32) else c

def lowerStr (s : String) : String :=
  String.mk (s.data.map lowerChar)

/-- Collapse every maximal run of whitespace to a single `' '`
(JS `.replace(/\s+/g, ' ')`).  The flag records whether the previous
character was part of a whitespace run. -/
def collapseWsAux : List Char → Bool → List Char
  | [], _ => []
  | c :: cs, inRun =>
    if isSpaceChar c then
      if inRun then collapseWsAux cs true else ' ' :: collapseWsAux cs true
    else
      c :: collapseWsAux cs false

def collapseWs (cs : List Char) : List Char :=
  collapseWsAux cs false

/-- JS `.trim()`: strip leading and trailing whitespace. -/
def trimChars (cs : List Char) : List Char :=
  ((cs.dropWhile isSpaceChar).reverse.dropWhile isSpaceChar).reverse

def containsSubstrList (needle : List Char) : List Char → Bool
  | [] => needle.isEmpty
  | c :: t => needle.isPrefixOf (c :: t) || containsSubstrList needle t

/-- JS `String.prototype.includes` (substring containment). -/
def containsSubstr (hay needle : String) : Bool :=
  containsSubstrList needle.data hay.data

def splitOnCommaAux : List Char → List Char → List String
  | [], acc => [String.mk acc.reverse]
  | c :: t, acc =>
    if c = ',' then String.mk acc.reverse :: splitOnCommaAux t []
    else splitOnCommaAux t (c :: acc)

/-- JS `s.split(',')`. -/
def splitOnComma (s : String) : List String :=
  splitOnCommaAux s.data []

/-- `parts.join(sep)`. -/
def joinParts (sep : String) : List String → String
  | [] => ""
  | [p] => p
  | p :: q :: ps => p ++ sep ++ joinParts sep (q :: ps)

/-! ## Name normalizers (`musicbrainz.ts`, `trackCache.ts`) -/

/-- `normalizeForComparison` (`musicbrainz.ts` line 670, identical copy in
`discogs.ts` line 224): lowercase, remove non-word non-space characters,
collapse whitespace, trim. -/
def normalizeForComparison (s : String) : String :=
  String.mk (trimChars (collapseWs ((lowerStr s).data.filter
    (fun c => isWordChar c || isSpaceChar c))))

/-- `normalizeForCache` (`musicbrainz.ts` line 32): lowercase, remove
punctuation, trim (no whitespace collapsing). -/
def normalizeForCache (s : String) : String :=
  String.mk (trimChars ((lowerStr s).data.filter
    (fun c => isWordChar c || isSpaceChar c)))

/-- `normalizeArtistName` (`musicbrainz.ts` line 682): lowercase, remove
periods / hyphens / underscores / dollar signs, collapse whitespace, trim. -/
def normalizeArtistName (s : String) : String :=
  String.mk (trimChars (collapseWs ((lowerStr s).data.filter
    (fun c => !(c = '.' || c = '-' || c = '_' || c = '$')))))

/-- `normalizeForKey` (`trackCache.ts` line 32): lowercase, remove
punctuation, replace whitespace runs with `'_'`, trim, truncate to 50. -/
def normalizeForKey (s : String) : String :=
  String.mk ((trimChars ((collapseWs ((lowerStr s).data.filter
    (fun c => isWordChar c || isSpaceChar c))).map
      (fun c => if c = ' ' then '_' else c))).take 50)

/-! ## Data model (`src/types/music.ts`) -/

inductive EntityType where
  | artist | track | album | label
deriving DecidableEq, Repr

inductive ReleaseKind where
  | album | single | ep | other
deriving DecidableEq, Repr

/-- The closed role-tag set `RoleType` of `src/types/music.ts`. -/
inductive RoleType where
  | primary_artist | featured | remixer
  | producer | executive_producer | co_producer | vocal_producer | additional_producer
  | songwriter | composer | lyricist | arranger
  | engineer | mixing | mastering | recording | programming
  | vocals | background_vocals | choir
  | guitar | bass | violin | cello | strings
  | drums | percussion
  | keyboards | piano | organ | synthesizer
  | saxophone | trumpet | horns | flute | woodwinds
  | harmonica | turntables | other_instrument
  | member_of | signed_to | released_on | contains
deriving DecidableEq, Repr

/-- The string form of a role tag, as it is interpolated into relationship
id templates such as `rel-${trackId}-${artistId}-${role}`. -/
def RoleType.str : RoleType → String
  | .primary_artist => "primary_artist"
  | .featured => "featured"
  | .remixer => "remixer"
  | .producer => "producer"
  | .executive_producer => "executive_producer"
  | .co_producer => "co_producer"
  | .vocal_producer => "vocal_producer"
  | .additional_producer => "additional_producer"
  | .songwriter => "songwriter"
  | .composer => "composer"
  | .lyricist => "lyricist"
  | .arranger => "arranger"
  | .engineer => "engineer"
  | .mixing => "mixing"
  | .mastering => "mastering"
  | .recording => "recording"
  | .programming => "programming"
  | .vocals => "vocals"
  | .background_vocals => "background_vocals"
  | .choir => "choir"
  | .guitar => "guitar"
  | .bass => "bass"
  | .violin => "violin"
  | .cello => "cello"
  | .strings => "strings"
  | .drums => "drums"
  | .percussion => "percussion"
  | .keyboards => "keyboards"
  | .piano => "piano"
  | .organ => "organ"
  | .synthesizer => "synthesizer"
  | .saxophone => "saxophone"
  | .trumpet => "trumpet"
  | .horns => "horns"
  | .flute => "flute"
  | .woodwinds => "woodwinds"
  | .harmonica => "harmonica"
  | .turntables => "turntables"
  | .other_instrument => "other_instrument"
  | .member_of => "member_of"
  | .signed_to => "signed_to"
  | .released_on => "released_on"
  | .contains => "contains"

/-- `MusicEntity` (`src/types/music.ts`).  The drill-down navigation fields
(`parentId`, `depth`, `childCount`, `metadata`) are not touched by any of the
operations verified here and are omitted. -/
structure MusicEntity where
  id : String
  name : String
  type : EntityType
  image : Option String := none
  mbid : Option String := none
  releaseType : Option ReleaseKind := none
  isExpanded : Bool := false
  isHidden : Bool := false
  childrenLoaded : Bool := false
deriving DecidableEq, Repr

/-- `Relationship` (`src/types/music.ts`); `startYear`/`endYear` are never
set by the verified code and are omitted. -/
structure Relationship where
  id : String
  source : String
  target : String
  role : RoleType
deriving DecidableEq, Repr

structure MusicGraph where
  entities : List MusicEntity
  relationships : List Relationship
deriving DecidableEq, Repr

/-! ## Track cache (`src/services/trackCache.ts`)

`localStorage` is modelled as a `Storage` value: the `INDEX_KEY` slot holds an
optional parsed `CacheIndex`, and each `CACHE_PREFIX + key` slot is a binding
in an association list.  The current wall-clock time (`Date.now()`) is passed
explicitly.  Because `getIndex` and `clearCache` call each other, the pair is
modelled with a fuel parameter; `none` means the computation did not finish
within the given fuel (in particular, unbounded mutual recursion diverges for
every fuel). -/

structure CachedTrack where
  entities : List MusicEntity
  relationships : List Relationship
  timestamp : Nat
  lastAccess : Nat
  hitCount : Nat
deriving DecidableEq, Repr

structure CacheIndex where
  keys : List String
  version : Nat
deriving DecidableEq, Repr

def CACHE_VERSION : Nat := 1
def MAX_CACHE_SIZE : Nat := 150

structure Storage where
  indexSlot : Option CacheIndex
  entries : List (String × CachedTrack)
deriving DecidableEq, Repr

def Storage.empty : Storage := ⟨none, []⟩

/-- `localStorage.setItem` on a `CACHE_PREFIX + key` slot (overwrite or add). -/
def setItem (k : String) (v : CachedTrack) (es : List (String × CachedTrack)) :
    List (String × CachedTrack) :=
  if es.any (fun p => p.1 = k) then
    es.map (fun p => if p.1 = k then (k, v) else p)
  else
    es ++ [(k, v)]

/-- `localStorage.removeItem` on a `CACHE_PREFIX + key` slot. -/
def removeItem (k : String) (es : List (String × CachedTrack)) :
    List (String × CachedTrack) :=
  es.filter (fun p => p.1 ≠ k)

def hasItem (k : String) (es : List (String × CachedTrack)) : Bool :=
  es.any (fun p => p.1 = k)

/-- `generateCacheKey` (`trackCache.ts` line 44). -/
def generateCacheKey (trackName artistName : String) (albumName : Option String) : String :=
  let parts := [normalizeForKey artistName, normalizeForKey trackName] ++
    (match albumName with
     | some a => [normalizeForKey a]
     | none => [])
  joinParts "::" parts

/-- `saveIndex` (`trackCache.ts` line 79). -/
def saveIndex (idx : CacheIndex) (st : Storage) : Storage :=
  { st with indexSlot := some idx }

/-- The mutually recursive pair `getIndex` / `clearCache`
(`trackCache.ts` lines 58 and 244) evaluated with `fuel` steps.  `getIndex`
calls `clearCache` on a version mismatch, and `clearCache` starts by
calling `getIndex`; both recursive calls take the same (smaller) fuel and
the same store, so the pair is computed together.  The first component is
the result of `getIndex`, the second of `clearCache`; `none` means the
computation did not finish within the fuel. -/
def cachePairF : Nat → Storage → Option (CacheIndex × Storage) × Option Storage
  | 0, _ => (none, none)
  | fuel + 1, st =>
    let prev := cachePairF fuel st
    (match st.indexSlot with
     | some idx =>
       if idx.version = CACHE_VERSION then
         some (idx, st)
       else
         match prev.2 with
         | some st1 => some (⟨[], CACHE_VERSION⟩, st1)
         | none => none
     | none => some (⟨[], CACHE_VERSION⟩, st),
     match prev.1 with
     | some (idx, st1) =>
       some { indexSlot := none,
              entries := idx.keys.foldl (fun es k => removeItem k es) st1.entries }
     | none => none)

/-- `getIndex` (`trackCache.ts` line 58): on a format-version mismatch it
calls `clearCache()` and then returns a fresh index. -/
def getIndexF (fuel : Nat) (st : Storage) : Option (CacheIndex × Storage) :=
  (cachePairF fuel st).1

/-- `clearCache` (`trackCache.ts` line 244): reads the index via `getIndex`,
removes every listed entry, then removes the index slot. -/
def clearCacheF (fuel : Nat) (st : Storage) : Option Storage :=
  (cachePairF fuel st).2

/-- The `while (index.keys.length >= MAX_CACHE_SIZE)` eviction loop of
`setCachedTrack` (`trackCache.ts` lines 178-184): repeatedly pop the last
(least-recently-used) key and remove its stored entry. -/
def evictLoopAux : Nat → List String → List (String × CachedTrack) →
    List String × List (String × CachedTrack)
  | 0, keys, es => (keys, es)
  | n + 1, keys, es =>
    if MAX_CACHE_SIZE ≤ keys.length then
      match keys.getLast? with
      | some lastKey => evictLoopAux n keys.dropLast (removeItem lastKey es)
      | none => (keys, es)
    else
      (keys, es)

def evictLoop (keys : List String) (es : List (String × CachedTrack)) :
    List String × List (String × CachedTrack) :=
  evictLoopAux keys.length keys es

/-- `setCachedTrack` (`trackCache.ts` line 146).  `now` is `Date.now()`.
Storage-quota failures are outside the model (the modelled store never
rejects a write), so the quota-eviction retry path is not taken. -/
def setCachedTrackF (fuel : Nat) (trackName artistName : String)
    (albumName : Option String) (entities : List MusicEntity)
    (relationships : List Relationship) (now : Nat) (st : Storage) :
    Option Storage :=
  let key := generateCacheKey trackName artistName albumName
  if entities.length = 0 then
    some st
  else
    let entry : CachedTrack :=
      ⟨entities, relationships, now, now, 0⟩
    match getIndexF fuel st with
    | none => none
    | some (idx, st1) =>
      let keys1 := idx.keys.erase key
      let (keys2, es2) := evictLoop keys1 st1.entries
      let idx2 : CacheIndex := ⟨key :: keys2, CACHE_VERSION⟩
      let st2 := saveIndex idx2 { st1 with entries := es2 }
      some { st2 with entries := setItem key entry st2.entries }

/-- `getCacheStats` (`trackCache.ts` line 256). -/
structure CacheStats where
  trackCount : Nat
  oldestEntry : Option Nat
  newestEntry : Option Nat
  totalHits : Nat
deriving DecidableEq, Repr

def getCacheStatsF (fuel : Nat) (st : Storage) : Option CacheStats :=
  match getIndexF fuel st with
  | none => none
  | some (idx, st1) =>
    let acc := idx.keys.foldl
      (fun (acc : Option Nat × Option Nat × Nat) k =>
        match st1.entries.find? (fun p => p.1 = k) with
        | some (_, e) =>
          (some (match acc.1 with
                 | some o => min o e.timestamp
                 | none => e.timestamp),
           some (match acc.2.1 with
                 | some n => max n e.timestamp
                 | none => e.timestamp),
           acc.2.2 + e.hitCount)
        | none => acc)
      (none, none, 0)
    some ⟨idx.keys.length, acc.1, acc.2.1, acc.2.2⟩

/-! ## A small backtracking regular-expression engine

The source uses a handful of JS regular expressions (`cleanTrackName`,
`isAlternateVersion`).  They are embedded via an abstract syntax of exactly
the constructs those patterns use, with a continuation-passing backtracking
matcher that mirrors the JS engine's preference order: alternatives are
tried left to right, greedy quantifiers prefer longer matches and lazy ones
shorter, and a quantifier body must consume at least one character per
iteration.  All patterns are matched case-insensitively (every source regex
carries the `i` flag). -/

inductive RPat where
  /-- a literal character, compared case-insensitively -/
  | chr (c : Char)
  /-- `.` (any character except line terminators) -/
  | anyc
  /-- `\s` -/
  | ws
  /-- `[^\)\]]` -/
  | notClose
  /-- `[\(\[]` -/
  | openBr
  /-- `[\)\]]` -/
  | closeBr
  /-- `[-–—]` -/
  | dashc
  /-- `\d` -/
  | digit
  | seq2 (p q : RPat)
  | alt (p q : RPat)
  /-- greedy `*` -/
  | star (p : RPat)
  /-- lazy `*?` -/
  | lazyStar (p : RPat)
  /-- greedy `?` -/
  | opt (p : RPat)
  /-- `$` (no `m` flag anywhere) -/
  | eos
  | eps
deriving Repr

/-- Case-insensitive single-character class test. -/
def RPat.matches1 : RPat → Char → Bool
  | .chr c, a => lowerChar a = lowerChar c
  | .anyc, a => !(a = '\n' || a = '\x0d')
  | .ws, a => isSpaceChar a
  | .notClose, a => !(a = ')' || a = ']')
  | .openBr, a => (a = '(' || a = '[')
  | .closeBr, a => (a = ')' || a = ']')
  | .dashc, a => (a = '-' || a = '–' || a = '—')
  | .digit, a => ('0' ≤ a && a ≤ '9')
  | _, _ => false

/-- Backtracking matcher.  `mrun fuel p s k` tries to match `p` against a
prefix of `s` and calls the continuation `k` on the rest, returning the
first success in the engine\x27s preference order.  One unit of fuel is spent
per step; `matchAt` supplies fuel that is always sufficient for the
patterns in this file (every quantifier iteration consumes at least one
character, so the call depth is bounded by the pattern size times the
string length). -/
def mrun : Nat → RPat → List Char → (List Char → Option (List Char)) → Option (List Char)
  | 0, _, _, _ => none
  | _ + 1, .eps, s, k => k s
  | _ + 1, .eos, s, k => if s.isEmpty then k s else none
  | _ + 1, .chr c, s, k =>
    match s with
    | [] => none
    | a :: t => if (RPat.chr c).matches1 a then k t else none
  | _ + 1, .anyc, s, k =>
    match s with
    | [] => none
    | a :: t => if RPat.anyc.matches1 a then k t else none
  | _ + 1, .ws, s, k =>
    match s with
    | [] => none
    | a :: t => if RPat.ws.matches1 a then k t else none
  | _ + 1, .notClose, s, k =>
    match s with
    | [] => none
    | a :: t => if RPat.notClose.matches1 a then k t else none
  | _ + 1, .openBr, s, k =>
    match s with
    | [] => none
    | a :: t => if RPat.openBr.matches1 a then k t else none
  | _ + 1, .closeBr, s, k =>
    match s with
    | [] => none
    | a :: t => if RPat.closeBr.matches1 a then k t else none
  | _ + 1, .dashc, s, k =>
    match s with
    | [] => none
    | a :: t => if RPat.dashc.matches1 a then k t else none
  | _ + 1, .digit, s, k =>
    match s with
    | [] => none
    | a :: t => if RPat.digit.matches1 a then k t else none
  | fuel + 1, .seq2 p q, s, k => mrun fuel p s (fun s1 => mrun fuel q s1 k)
  | fuel + 1, .alt p q, s, k => (mrun fuel p s k).orElse (fun _ => mrun fuel q s k)
  | fuel + 1, .opt p, s, k => (mrun fuel p s k).orElse (fun _ => k s)
  | fuel + 1, .star p, s, k =>
    (mrun fuel p s (fun s1 =>
      if s1.length < s.length then mrun fuel (.star p) s1 k else k s1)).orElse
      (fun _ => k s)
  | fuel + 1, .lazyStar p, s, k =>
    (k s).orElse (fun _ =>
      mrun fuel p s (fun s1 =>
        if s1.length < s.length then mrun fuel (.lazyStar p) s1 k else none))

/-- greedy `+`, by desugaring. -/
def RPat.plus1 (p : RPat) : RPat := .seq2 p (.star p)

/-- lazy `*?` followed by nothing else is only used through `lazyStar`. -/
def rseq (ps : List RPat) : RPat :=
  ps.foldr RPat.seq2 .eps

/-- left-to-right alternation `(?:p₁|p₂|…|pₙ)` -/
def ralts : List RPat → RPat
  | [] => .eps
  | [p] => p
  | p :: ps => .alt p (ralts ps)

/-- a case-insensitive literal string -/
def rlit (s : String) : RPat :=
  rseq (s.data.map RPat.chr)

/-- The number of constructors in a pattern, used to size the matcher fuel. -/
def patSize : RPat → Nat
  | .seq2 p q => patSize p + patSize q + 1
  | .alt p q => patSize p + patSize q + 1
  | .star p => patSize p + 1
  | .lazyStar p => patSize p + 1
  | .opt p => patSize p + 1
  | _ => 1

/-- Try to match `p` at the start of `s`; on success return the suffix after
the (preferred) match.  The fuel over-approximates the matcher call depth:
along any single search path at most `patSize p` steps are taken per
character consumed (plus one final pass over the pattern), so
`(patSize p + 2) * (s.length + 2)` steps always suffice. -/
def matchAt (p : RPat) (s : List Char) : Option (List Char) :=
  mrun ((patSize p + 2) * (s.length + 2)) p s (fun s1 => some s1)

def rtestAux (p : RPat) : List Char → Bool
  | [] => (matchAt p []).isSome
  | c :: t => (matchAt p (c :: t)).isSome || rtestAux p t

/-- JS `regex.test(s)` for an unanchored pattern: some match at some
position. -/
def rtest (p : RPat) (s : String) : Bool :=
  rtestAux p s.data

/-- JS `s.replace(pat, '')` with the `g` flag: scan left to right, deleting
each (non-overlapping) match; an empty match deletes nothing and the scan
advances one character.  The counter is an upper bound on the remaining
string length, so the 0 case is unreachable from `replaceAllS`. -/
def replaceAllAux (p : RPat) : Nat → List Char → List Char
  | _, [] => []
  | 0, s => s
  | n + 1, c :: t =>
    match matchAt p (c :: t) with
    | some rest =>
      if rest.length < (c :: t).length then
        replaceAllAux p n rest
      else
        c :: replaceAllAux p n t
    | none => c :: replaceAllAux p n t

def replaceAllM (p : RPat) (s : List Char) : List Char :=
  replaceAllAux p s.length s

/-- JS `s.replace(pat, '')` without the `g` flag: delete only the first
match. -/
def replaceFirstM (p : RPat) : List Char → List Char
  | [] => []
  | c :: t =>
    match matchAt p (c :: t) with
    | some rest => rest
    | none => c :: replaceFirstM p t

def replaceAllS (p : RPat) (s : String) : String :=
  String.mk (replaceAllM p s.data)

def replaceFirstS (p : RPat) (s : String) : String :=
  String.mk (replaceFirstM p s.data)

/-! ## Track-name cleaning and recording search (`musicbrainz.ts`) -/

/-- `(?:feat\.?|ft\.?|featuring)` -/
def featAlt : RPat :=
  ralts [RPat.seq2 (rlit "feat") (.opt (.chr '.')),
         RPat.seq2 (rlit "ft") (.opt (.chr '.')),
         rlit "featuring"]

/-- `/\s*[\(\[]\s*(?:feat\.?|ft\.?|featuring)\s+[^\)\]]+[\)\]]/gi` -/
def featPat1 : RPat :=
  rseq [.star .ws, .openBr, .star .ws, featAlt, RPat.plus1 .ws, RPat.plus1 .notClose, .closeBr]

/-- `/\s*[-–—]\s*(?:feat\.?|ft\.?|featuring)\s+.+$/gi` -/
def featPat2 : RPat :=
  rseq [.star .ws, .dashc, .star .ws, featAlt, RPat.plus1 .ws, RPat.plus1 .anyc, .eos]

/-- `/\s*(?:feat\.?|ft\.?|featuring)\s+.+$/gi` -/
def featPat3 : RPat :=
  rseq [.star .ws, featAlt, RPat.plus1 .ws, RPat.plus1 .anyc, .eos]

def featPatterns : List RPat := [featPat1, featPat2, featPat3]

/-- `/\s*[\(\[](?:official\s*(?:video|audio|music\s*video)?|lyric\s*video|audio|explicit|clean)[\)\]]/gi` -/
def versionPat1 : RPat :=
  rseq [.star .ws, .openBr,
        ralts [rseq [rlit "official", .star .ws,
                     .opt (ralts [rlit "video", rlit "audio",
                                  rseq [rlit "music", .star .ws, rlit "video"]])],
               rseq [rlit "lyric", .star .ws, rlit "video"],
               rlit "audio", rlit "explicit", rlit "clean"],
        .closeBr]

/-- `/\s*[\(\[](?:radio\s*edit|single\s*version|album\s*version|lp\s*version|12"\s*version|7"\s*version)[\)\]]/gi` -/
def versionPat2 : RPat :=
  rseq [.star .ws, .openBr,
        ralts [rseq [rlit "radio", .star .ws, rlit "edit"],
               rseq [rlit "single", .star .ws, rlit "version"],
               rseq [rlit "album", .star .ws, rlit "version"],
               rseq [rlit "lp", .star .ws, rlit "version"],
               rseq [rlit "12\"", .star .ws, rlit "version"],
               rseq [rlit "7\"", .star .ws, rlit "version"]],
        .closeBr]

/-- `/\s*[\(\[](?:extended|original|edit|mix|remix|remaster(?:ed)?|bonus\s*track)[\)\]]/gi` -/
def versionPat3 : RPat :=
  rseq [.star .ws, .openBr,
        ralts [rlit "extended", rlit "original", rlit "edit", rlit "mix", rlit "remix",
               RPat.seq2 (rlit "remaster") (.opt (rlit "ed")),
               rseq [rlit "bonus", .star .ws, rlit "track"]],
        .closeBr]

/-- `/\s*[\(\[](?:live|acoustic|demo|instrumental)[\)\]]/gi` -/
def versionPat4 : RPat :=
  rseq [.star .ws, .openBr,
        ralts [rlit "live", rlit "acoustic", rlit "demo", rlit "instrumental"],
        .closeBr]

def versionPatterns : List RPat := [versionPat1, versionPat2, versionPat3, versionPat4]

/-- `/\s+from\s+.+$/i` (single replacement, no `g`). -/
def fromPat : RPat :=
  rseq [RPat.plus1 .ws, rlit "from", RPat.plus1 .ws, RPat.plus1 .anyc, .eos]

/-- `cleanTrackName` (`musicbrainz.ts` line 513): strip featured-artist
patterns, then version suffixes, then a trailing `From <album>` phrase, and
trim. -/
def cleanTrackName (trackName : String) : String :=
  let c1 := featPatterns.foldl (fun s p => replaceAllS p s) trackName
  let c2 := versionPatterns.foldl (fun s p => replaceAllS p s) c1
  let c3 := replaceFirstS fromPat c2
  String.mk (trimChars c3.data)

/-! ### Recording search results and scoring -/

structure MBArtistRef where
  id : String
  name : String
deriving DecidableEq, Repr

structure MBArtistCredit where
  artist : MBArtistRef
  joinphrase : Option String := none
deriving DecidableEq, Repr

/-- A release attached to a recording (search result or full lookup),
with its release-group's primary/secondary types. -/
structure MBSearchRelease where
  id : String
  title : String
  status : Option String := none
  rgPrimaryType : Option String := none
  rgSecondaryTypes : List String := []
deriving DecidableEq, Repr

structure MBRecordingSearchResult where
  id : String
  title : String
  score : Option Int := none
  disambiguation : Option String := none
  artistCredit : List MBArtistCredit := []
  releases : List MBSearchRelease := []
deriving DecidableEq, Repr

/-- The Lucene query string `searchRecording` builds. -/
def buildRecordingQuery (trackName : String) (artistName albumName : Option String) : String :=
  "recording:\"" ++ trackName ++ "\"" ++
  (match artistName with
   | some a => " AND artist:\"" ++ a ++ "\""
   | none => "") ++
  (match albumName with
   | some al => " AND release:\"" ++ al ++ "\""
   | none => "")

/-- `searchRecording` (`musicbrainz.ts` line 548), with the HTTP layer
abstracted into an oracle from query strings to the decoded `recordings`
field (`none` models a response without that field).  Returns the result
list together with the number of searches performed. -/
def searchRecordingModel (oracle : String → Option (List MBRecordingSearchResult))
    (trackName : String) (artistName albumName : Option String) :
    List MBRecordingSearchResult × Nat :=
  let cleanedTrackName := cleanTrackName trackName
  let data := oracle (buildRecordingQuery cleanedTrackName artistName albumName)
  if data = some [] ∧ cleanedTrackName ≠ trackName then
    ((oracle (buildRecordingQuery trackName artistName albumName)).getD [], 2)
  else
    (data.getD [], 1)

def alternateIndicators : List String :=
  ["live", "remix", "acoustic", "demo", "radio edit", "instrumental",
   "karaoke", "cover", "remaster", "alternate", "edit", "mix",
   "version", "reprise", "interlude", "skit"]

/-- `/[\(\[\-].*?(live|remix|acoustic|demo|radio|instrumental|remaster|edit|mix).*?[\)\]]/i` -/
def bracketPat : RPat :=
  rseq [.alt .openBr (.chr '-'),
        .lazyStar .anyc,
        ralts [rlit "live", rlit "remix", rlit "acoustic", rlit "demo", rlit "radio",
               rlit "instrumental", rlit "remaster", rlit "edit", rlit "mix"],
        .lazyStar .anyc,
        .closeBr]

/-- `isAlternateVersion` (`musicbrainz.ts` line 598). -/
def isAlternateVersion (title : String) (disambiguation : Option String) : Bool :=
  let lowerDisamb := lowerStr (disambiguation.getD "")
  alternateIndicators.any (fun ind => containsSubstr lowerDisamb ind) ||
  rtest bracketPat title

def alternateSecondaryTypes : List String :=
  ["Live", "Remix", "Compilation", "DJ-mix", "Mixtape/Street", "Soundtrack"]

def compilationIndicators : List String :=
  ["greatest hits", "best of", "collection", "anthology",
   "soundtrack", "ost", "motion picture", "film", "movie",
   "various artists", "compilation", "now that\x27s what i call",
   "hits", "essentials", "ultimate", "complete", "definitive"]

/-- `isAlternateRelease` (`musicbrainz.ts` line 633). -/
def isAlternateRelease (r : MBSearchRelease) : Bool :=
  r.rgSecondaryTypes.any (fun t => alternateSecondaryTypes.contains t) ||
  compilationIndicators.any (fun ind => containsSubstr (lowerStr r.title) ind)

/-- The body of the release loop inside `scoreRecordingMatch`
(`musicbrainz.ts` lines 742-770): the sub-score of one release against the
requested album. -/
def recordingReleaseSubscore (normalizedAlbum : String) (release : MBSearchRelease) : Int :=
  let normalizedReleaseTitle := normalizeForComparison release.title
  let rs0 : Int :=
    if normalizedReleaseTitle = normalizedAlbum then 80
    else if containsSubstr normalizedReleaseTitle normalizedAlbum ||
            containsSubstr normalizedAlbum normalizedReleaseTitle then 40
    else 0
  let rs1 := if release.status = some "Official" then rs0 + 10 else rs0
  let rs2 := if isAlternateRelease release then rs1 - 60 else rs1
  let rs3 := if release.rgPrimaryType = some "Album" then rs2 + 15 else rs2
  rs3

/-- `scoreRecordingMatch` (`musicbrainz.ts` line 693). -/
def scoreRecordingMatch (recording : MBRecordingSearchResult)
    (trackName artistName : String) (albumName : Option String) : Int :=
  let score0 : Int := recording.score.getD 0
  let normalizedTrack := normalizeForComparison trackName
  let normalizedRecordingTitle := normalizeForComparison recording.title
  let normalizedArtist := normalizeForComparison artistName
  let score1 := if normalizedRecordingTitle = normalizedTrack then score0 + 50 else score0
  let score2 :=
    if isAlternateVersion recording.title recording.disambiguation then score1 - 100 else score1
  let disamb := lowerStr (recording.disambiguation.getD "")
  let score3 :=
    if containsSubstr disamb "clean" || containsSubstr disamb "edited" ||
       containsSubstr disamb "radio edit" then score2 - 50 else score2
  let artistCreditCount := recording.artistCredit.length
  let score4 :=
    if 1 < artistCreditCount then score3 + 25 * ((artistCreditCount : Int) - 1) else score3
  let recordingArtists := recording.artistCredit.map (fun c => normalizeForComparison c.artist.name)
  let score5 :=
    if recordingArtists.any (fun a => a = normalizedArtist || containsSubstr a normalizedArtist)
    then score4 + 30 else score4
  match albumName with
  | none => score5
  | some album =>
    let normalizedAlbum := normalizeForComparison album
    let bestReleaseScore := recording.releases.foldl
      (fun best release => max best (recordingReleaseSubscore normalizedAlbum release))
      (-50)
    score5 + bestReleaseScore

/-! ### Best-candidate selection (`buildGraphFromTrack`, lines 816-860)

The source scores every candidate, sorts descending with the JS stable
`Array.prototype.sort` (comparator `b.score - a.score`) and takes the first
element; the empty-graph result is produced only when the candidate list is
empty.  The stable descending sort is modelled by stable insertion sort. -/

def insertByScoreDesc (x : MBRecordingSearchResult × Int) :
    List (MBRecordingSearchResult × Int) → List (MBRecordingSearchResult × Int)
  | [] => [x]
  | y :: ys => if x.2 < y.2 then y :: insertByScoreDesc x ys else x :: y :: ys

def stableSortByScoreDesc :
    List (MBRecordingSearchResult × Int) → List (MBRecordingSearchResult × Int)
  | [] => []
  | x :: xs => insertByScoreDesc x (stableSortByScoreDesc xs)

def scoreAllRecordings (recordings : List MBRecordingSearchResult)
    (trackName artistName : String) (albumName : Option String) :
    List (MBRecordingSearchResult × Int) :=
  recordings.map (fun r => (r, scoreRecordingMatch r trackName artistName albumName))

/-- The candidate the matcher settles on (`none` iff the candidate list is
empty). -/
def selectBestRecording (recordings : List MBRecordingSearchResult)
    (trackName artistName : String) (albumName : Option String) :
    Option MBRecordingSearchResult :=
  match recordings with
  | [] => none
  | _ =>
    ((stableSortByScoreDesc
        (scoreAllRecordings recordings trackName artistName albumName)).head?).map
      (fun p => p.1)

/-! ## Upstream fetch and 429 handling

`fetchMB` (`musicbrainz.ts` line 335) and `fetchDiscogs` (`discogs.ts`
line 98), with the transport abstracted into a stream of decoded outcomes,
one per attempted request.  `fetchDiscogs` calls itself recursively on a
429; the model counts attempts and uses fuel for the unbounded recursion
(`none` = the recursion did not finish within the given fuel). -/

inductive FetchOutcome (α : Type) where
  /-- `response.ok` with a decoded body -/
  | success (a : α)
  /-- `!response.ok` with this HTTP status -/
  | failure (status : Nat)
deriving DecidableEq, Repr

/-- `fetchMB`: a non-ok response throws immediately; there is no retry, so
exactly one response is consumed. -/
def fetchMBModel {α : Type} (r : FetchOutcome α) : Except String α :=
  match r with
  | .success a => .ok a
  | .failure status => .error ("MusicBrainz API error: " ++ toString status)

/-- `fetchDiscogs`: a 429 waits 60 s and then re-invokes `fetchDiscogs` with
no retry bound; any other non-ok status throws.  Returns the final outcome
together with the total number of requests issued. -/
def fetchDiscogsModel {α : Type} : Nat → List (FetchOutcome α) → Option (Except String α × Nat)
  | _, [] => none
  | 0, _ :: _ => none
  | fuel + 1, r :: rs =>
    match r with
    | .success a => some (.ok a, 1)
    | .failure status =>
      if status = 429 then
        match fetchDiscogsModel fuel rs with
        | some (res, n) => some (res, n + 1)
        | none => none
      else
        some (.error ("Discogs API error: " ++ toString status), 1)

/-! ## Relationship id derivations

The id templates used at the three relationship-creation sites. -/

/-- `rel-${source}-${target}-${role}` — the template used throughout
`buildGraphFromTrack` (artist credits, personnel, work relations). -/
def mbRelId (source target : String) (role : RoleType) : String :=
  "rel-" ++ source ++ "-" ++ target ++ "-" ++ role.str

/-- `rel-discogs-${trackId}-${artistId}-${role}` — the template used by
`getTrackCredits` in `discogs.ts`. -/
def discogsRelId (source target : String) (role : RoleType) : String :=
  "rel-discogs-" ++ source ++ "-" ++ target ++ "-" ++ role.str

/-- `rel-${trackId}-${id}-${role}-discogs` — the template used when the
Discogs merge retargets a relationship onto an existing entity. -/
def retargetedDiscogsRelId (source target : String) (role : RoleType) : String :=
  "rel-" ++ source ++ "-" ++ target ++ "-" ++ role.str ++ "-discogs"

/-! ## Discogs track credits (`discogs.ts`) -/

structure DiscogsArtistCredit where
  id : Nat
  name : String
  role : Option String := none
  tracks : Option String := none
deriving DecidableEq, Repr

/-- A tracklist entry; an absent `extraartists` field is modelled as `[]`
(the source only iterates over the list, and iterating an empty list is
observationally the same as skipping an absent one). -/
structure DiscogsTrack where
  position : String
  title : String
  extraartists : List DiscogsArtistCredit := []
deriving DecidableEq, Repr

structure DiscogsRelease where
  id : Nat
  title : String
  tracklist : List DiscogsTrack := []
  extraartists : List DiscogsArtistCredit := []
deriving DecidableEq, Repr

structure DiscogsCredits where
  entities : List MusicEntity
  relationships : List Relationship
deriving DecidableEq, Repr

/-- JS `.trim()` on a `String`. -/
def jsTrim (s : String) : String :=
  String.mk (trimChars s.data)

/-- `/\s*\(\d+\)\s*$/` -/
def discogsNumberingPat : RPat :=
  rseq [.star .ws, .chr '(', RPat.plus1 .digit, .chr ')', .star .ws, .eos]

/-- `cleanArtistName` (`discogs.ts` line 217): strip a trailing
`" (2)"`-style numbering disambiguator and trim. -/
def cleanArtistName (name : String) : String :=
  jsTrim (replaceFirstS discogsNumberingPat name)

/-- `mapDiscogsRole` (`discogs.ts` line 177): the ordered free-text → role
lookup chain. -/
def mapDiscogsRole (role : String) : RoleType :=
  let r := lowerStr role
  if containsSubstr r "executive producer" then .executive_producer
  else if containsSubstr r "co-producer" then .co_producer
  else if containsSubstr r "vocal producer" then .vocal_producer
  else if containsSubstr r "additional producer" then .additional_producer
  else if containsSubstr r "producer" || containsSubstr r "produced by" then .producer
  else if containsSubstr r "written by" || containsSubstr r "written-by" then .songwriter
  else if containsSubstr r "lyrics by" || containsSubstr r "lyrics" then .songwriter
  else if containsSubstr r "music by" || containsSubstr r "composed by" then .songwriter
  else if containsSubstr r "songwriter" || containsSubstr r "composer" then .songwriter
  else if containsSubstr r "mixed by" || containsSubstr r "mixing" then .engineer
  else if containsSubstr r "mastered by" || containsSubstr r "mastering" then .engineer
  else if containsSubstr r "recorded by" || containsSubstr r "recording" then .engineer
  else if containsSubstr r "engineer" then .engineer
  else if containsSubstr r "vocal" || containsSubstr r "voice" then .vocals
  else if containsSubstr r "backing vocal" || containsSubstr r "background vocal" then .vocals
  else if containsSubstr r "featuring" || containsSubstr r "feat" then .featured
  else if containsSubstr r "guitar" then .guitar
  else if containsSubstr r "bass" then .bass
  else if containsSubstr r "drum" || containsSubstr r "percussion" then .drums
  else if containsSubstr r "keyboard" || containsSubstr r "piano" || containsSubstr r "synth"
  then .keyboards
  else .featured

/-- The per-credit state threaded through `getTrackCredits`:
entities, relationships, and the `seenArtists` id set. -/
abbrev CreditState := List MusicEntity × List Relationship × List String

/-- One iteration of the track-level credit loop of `getTrackCredits`
(`discogs.ts` lines 348-371). -/
def trackCreditStep (trackId : String) (st : CreditState)
    (artist : DiscogsArtistCredit) : CreditState :=
  let (ents, rels, seen) := st
  let artistId := "artist-discogs-" ++ toString artist.id
  let cleanName := cleanArtistName artist.name
  let (ents1, seen1) :=
    if artistId ∈ seen then (ents, seen)
    else (ents ++ [{ id := artistId, name := cleanName, type := .artist }], seen ++ [artistId])
  let role := mapDiscogsRole (artist.role.getD "performer")
  (ents1,
   rels ++ [{ id := discogsRelId trackId artistId role,
              source := trackId, target := artistId, role := role }],
   seen1)

/-- One iteration of the release-level credit loop of `getTrackCredits`
(`discogs.ts` lines 378-409), including the track-position scope filter. -/
def releaseCreditStep (trackId : String) (matchingTrack : Option DiscogsTrack)
    (st : CreditState) (artist : DiscogsArtistCredit) : CreditState :=
  let skip :=
    match artist.tracks, matchingTrack with
    | some tr, some mt =>
      let trackPositions := (splitOnComma tr).map jsTrim
      !(trackPositions.contains mt.position) && !(trackPositions.contains "")
    | _, _ => false
  if skip then st else trackCreditStep trackId st artist

/-- `getTrackCredits` (`discogs.ts` line 313) after `findBestRelease`
returned `release`: match the track in the tracklist, collect track-level
credits, then release-level credits filtered by track scope. -/
def getTrackCreditsFromRelease (trackName : String) (existingTrackId : Option String)
    (release : DiscogsRelease) : DiscogsCredits :=
  let trackId := existingTrackId.getD ("track-discogs-" ++ toString release.id)
  let normalizedTrackName := normalizeForComparison trackName
  let matchingTrack := release.tracklist.find? (fun t =>
    containsSubstr (normalizeForComparison t.title) normalizedTrackName ||
    containsSubstr normalizedTrackName (normalizeForComparison t.title))
  let st0 : CreditState := ([], [], [])
  let st1 :=
    match matchingTrack with
    | some mt => mt.extraartists.foldl (trackCreditStep trackId) st0
    | none => st0
  let st2 := release.extraartists.foldl (releaseCreditStep trackId matchingTrack) st1
  ⟨st2.1, st2.2.1⟩

/-! ## Alias resolution (`musicbrainz.ts` lines 162-226)

The process-wide `aliasToMbidMap` (normalized alias name → canonical MBID)
is modelled as an association list in which the first binding for a key
wins, matching `Map.get` once the map is populated. -/

def resolveArtistAlias (aliasMap : List (String × String)) (name : String) : Option String :=
  (aliasMap.find? (fun p => p.1 = normalizeForCache name)).map (fun p => p.2)

/-! ## The Discogs credit merge (`buildGraphFromTrack`, lines 1327-1409)

The in-progress graph is the triple of the `entities` and `relationships`
arrays and the `entityIds` set of `buildGraphFromTrack`. -/

structure BuildState where
  entities : List MusicEntity
  relationships : List Relationship
  entityIds : List String
deriving DecidableEq, Repr

/-- One iteration of the entity-merge loop (lines 1340-1360).  The
accumulator carries `entities`, `existingNames` and `entityIds`. -/
def entityMergeStep (aliasMap : List (String × String))
    (acc : List MusicEntity × List String × List String) (entity : MusicEntity) :
    List MusicEntity × List String × List String :=
  let (ents, names, eids) := acc
  let normalizedName := normalizeArtistName entity.name
  let aliasSkip : Bool :=
    match resolveArtistAlias aliasMap entity.name with
    | some canonicalMbid => ("artist-" ++ canonicalMbid) ∈ eids
    | none => false
  if aliasSkip then acc
  else if normalizedName ∈ names then acc
  else (ents ++ [entity], names ++ [normalizedName], eids ++ [entity.id])

/-- The retargeting applied to one supplemental relationship
(lines 1363-1392): alias match first, otherwise normalized-name match
against the graph's artist entities, then force the source to the track. -/
def retargetDiscogsRel (aliasMap : List (String × String)) (trackId : String)
    (creditEntities ents : List MusicEntity) (eids : List String)
    (rel : Relationship) : Relationship :=
  let rel1 :=
    match creditEntities.find? (fun e => e.id == rel.target) with
    | some discogsEntity =>
      match resolveArtistAlias aliasMap discogsEntity.name with
      | some canonicalMbid =>
        let canonicalId := "artist-" ++ canonicalMbid
        if canonicalId ∈ eids then
          { rel with target := canonicalId,
                     id := retargetedDiscogsRelId trackId canonicalId rel.role }
        else rel
      | none =>
        match ents.find? (fun (e : MusicEntity) =>
            normalizeArtistName e.name == normalizeArtistName discogsEntity.name &&
            e.type == EntityType.artist) with
        | some existingEntity =>
          if existingEntity.id ≠ rel.target then
            { rel with target := existingEntity.id,
                       id := retargetedDiscogsRelId trackId existingEntity.id rel.role }
          else rel
        | none => rel
    | none => rel
  { rel1 with source := trackId }

/-- One iteration of the relationship-merge loop (lines 1363-1401):
retarget, then drop the relationship if one with the same
`(source, target, role)` triple is already present. -/
def relMergeStep (aliasMap : List (String × String)) (trackId : String)
    (creditEntities ents : List MusicEntity) (eids : List String)
    (rels : List Relationship) (rel : Relationship) : List Relationship :=
  let rel2 := retargetDiscogsRel aliasMap trackId creditEntities ents eids rel
  if rels.any (fun r => r.source == rel2.source && r.target == rel2.target && r.role == rel2.role)
  then rels
  else rels ++ [rel2]

/-- The whole Discogs merge block of `buildGraphFromTrack`
(lines 1333-1404); a no-op when the supplemental source found nothing. -/
def mergeDiscogsCredits (aliasMap : List (String × String)) (trackId : String)
    (st : BuildState) (discogsCredits : DiscogsCredits) : BuildState :=
  if discogsCredits.entities.isEmpty then st
  else
    let existingNames := st.entities.map (fun e => normalizeArtistName e.name)
    let merged := discogsCredits.entities.foldl (entityMergeStep aliasMap)
      (st.entities, existingNames, st.entityIds)
    let rels := discogsCredits.relationships.foldl
      (relMergeStep aliasMap trackId discogsCredits.entities merged.1 merged.2.2)
      st.relationships
    ⟨merged.1, rels, merged.2.2⟩

/-! ## Work-relation (songwriter) processing
(`buildGraphFromTrack`, lines 1240-1311) -/

/-- An artist relation attached to a work (`MBRelation` with the fields the
work-relation loop reads). -/
structure WorkArtistRelation where
  type : String
  artist : Option MBArtistRef := none
deriving DecidableEq, Repr

/-- The work-relation role mapping (lines 1272-1282). -/
def mapWorkRelationRole (relType : String) : RoleType :=
  let workRole := lowerStr relType
  if workRole = "composer" || workRole = "music by" || workRole = "composed by" then .composer
  else if workRole = "lyricist" || workRole = "lyrics by" then .lyricist
  else if workRole = "writer" || workRole = "written by" then .songwriter
  else if workRole = "arranger" || workRole = "arranged by" then .arranger
  else .songwriter

/-- The `buildGraphFromTrack` locals the work-relation loop reads and
writes: the graph plus the `normalizedArtistNames` dedup set. -/
structure AssemblyState where
  entities : List MusicEntity
  relationships : List Relationship
  entityIds : List String
  normalizedArtistNames : List String
deriving DecidableEq, Repr

/-- One iteration of the work-relation loop (lines 1240-1311): resolve the
credited name through the alias table, else through normalized-name match,
then dedup the relationship by its derived id and add the entity only if it
is genuinely new. -/
def processWorkRelation (aliasMap : List (String × String)) (trackId : String)
    (st : AssemblyState) (rel : WorkArtistRelation) : AssemblyState :=
  match rel.artist with
  | none => st
  | some artist =>
    let personnelId := "artist-" ++ artist.id
    let normalizedName := normalizeArtistName artist.name
    let nameMatchId :=
      if normalizedName ∈ st.normalizedArtistNames ∧ personnelId ∉ st.entityIds then
        match st.entities.find? (fun e =>
            normalizeArtistName e.name == normalizedName && e.type == EntityType.artist) with
        | some existingArtist => existingArtist.id
        | none => personnelId
      else personnelId
    let effectivePersonnelId :=
      match resolveArtistAlias aliasMap artist.name with
      | some canonicalMbid =>
        if canonicalMbid ≠ artist.id then
          (if ("artist-" ++ canonicalMbid) ∈ st.entityIds then "artist-" ++ canonicalMbid
           else personnelId)
        else nameMatchId
      | none => nameMatchId
    let role := mapWorkRelationRole rel.type
    let relId := mbRelId trackId effectivePersonnelId role
    if st.relationships.any (fun r => r.id == relId) then st
    else
      let st1 :=
        if effectivePersonnelId ∉ st.entityIds ∧ normalizedName ∉ st.normalizedArtistNames then
          { st with
            entities := st.entities ++
              [{ id := personnelId, name := artist.name, type := .artist,
                 mbid := some artist.id }],
            entityIds := st.entityIds ++ [personnelId],
            normalizedArtistNames := st.normalizedArtistNames ++ [normalizedName] }
        else st
      { st1 with relationships := st1.relationships ++
          [{ id := relId, source := trackId, target := effectivePersonnelId, role := role }] }

/-- The loop over one work's artist relations. -/
def processWorkRelations (aliasMap : List (String × String)) (trackId : String)
    (st : AssemblyState) (rels : List WorkArtistRelation) : AssemblyState :=
  rels.foldl (processWorkRelation aliasMap trackId) st

/-! ## Spec-side formulations used for refinement claims -/

/-- Modelled from the spec (claim C4): a release title "implies an
anniversary/deluxe/remaster/special edition". -/
def titleImpliesSpecialEdition (title : String) : Bool :=
  ["anniversary", "deluxe", "remaster", "special"].any
    (fun w => containsSubstr (lowerStr title) w)

/-- The release sub-score exactly as claim C4 / spec §4.3 states it:
+80 exact album-title match, +40 partial, −60 compilation/live/remix/
soundtrack, −50 special edition, +15 official, +30 Album / +10 EP. -/
def claimedReleaseSubscore (albumName : String) (release : MBSearchRelease) : Int :=
  let nAlb := normalizeForComparison albumName
  let nRel := normalizeForComparison release.title
  (if nRel = nAlb then 80
   else if containsSubstr nRel nAlb || containsSubstr nAlb nRel then 40 else 0)
  + (if isAlternateRelease release then -60 else 0)
  + (if titleImpliesSpecialEdition release.title then -50 else 0)
  + (if release.status = some "Official" then 15 else 0)
  + (if release.rgPrimaryType = some "Album" then 30
     else if release.rgPrimaryType = some "EP" then 10 else 0)

/-- Claim C4's album component: the maximum sub-score across the
candidate's releases, with a −100 default when nothing matches. -/
def claimedAlbumComponent (albumName : String) (releases : List MBSearchRelease) : Int :=
  (releases.map (claimedReleaseSubscore albumName)).foldr max (-100)

/-- The overall score claim C4 describes: the code's non-album adjustments
plus the claimed album component. -/
def claimedScoreRecordingMatch (recording : MBRecordingSearchResult)
    (trackName artistName : String) (albumName : Option String) : Int :=
  scoreRecordingMatch recording trackName artistName none
  + (match albumName with
     | some album => claimedAlbumComponent album recording.releases
     | none => 0)

/-- The release sub-score `scoreRecordingMatch` actually computes
(the amended claim C4): +80 exact, +40 partial, +10 official, −60
compilation/live/remix/soundtrack, +15 Album primary type, and no
special-edition or EP adjustment. -/
def actualReleaseSubscore (albumName : String) (release : MBSearchRelease) : Int :=
  let nAlb := normalizeForComparison albumName
  let nRel := normalizeForComparison release.title
  (if nRel = nAlb then 80
   else if containsSubstr nRel nAlb || containsSubstr nAlb nRel then 40 else 0)
  + (if release.status = some "Official" then 10 else 0)
  + (if isAlternateRelease release then -60 else 0)
  + (if release.rgPrimaryType = some "Album" then 15 else 0)

/-- The album component `scoreRecordingMatch` actually adds: the maximum
actual sub-score across the candidate's releases with a −50 floor. -/
def actualAlbumComponent (albumName : String) (releases : List MBSearchRelease) : Int :=
  (releases.map (actualReleaseSubscore albumName)).foldr max (-50)

/-! ## Iterated cache puts (for the capacity scenario) -/

/-- A sequence of `setCachedTrack` calls, one per `(track, artist, album)`
input triple. -/
def putSeqF (fuel now : Nat) (entities : List MusicEntity)
    (relationships : List Relationship)
    (inputs : List (String × String × Option String)) (st : Storage) : Option Storage :=
  inputs.foldlM
    (fun s i => setCachedTrackF fuel i.1 i.2.1 i.2.2 entities relationships now s) st

/-! ## Concrete scenario inputs and proof-support predicates -/

/-- The state `buildGraphFromTrack` has built before the Discogs merge in
the C2 failing scenario: the graph holds only the track entity, named
"Mirage". -/
def c2FailingState : BuildState :=
  ⟨[{ id := "track-1", name := "Mirage", type := .track }], [], ["track-1"]⟩

/-- The supplemental Discogs credits in the C2 failing scenario: a credit
by an artist that happens to be named like the track (e.g. the band
"Mirage" credited on the track "Mirage"). -/
def c2FailingCredits : DiscogsCredits :=
  ⟨[{ id := "artist-discogs-7", name := "Mirage", type := .artist }],
   [{ id := discogsRelId "track-1" "artist-discogs-7" .producer,
      source := "track-1", target := "artist-discogs-7", role := .producer }]⟩

/-- A concrete recording candidate for the C4 scoring comparison: one
artist credit matching the requested artist and one release that is an
exact-title, official, Album-typed match for the requested album. -/
def c4Recording : MBRecordingSearchResult :=
  { id := "r1", title := "Foo", score := some 0,
    artistCredit := [⟨⟨"a1", "A"⟩, none⟩],
    releases := [⟨"rel1", "Alb", some "Official", some "Album", []⟩] }

/-- The condition under which `entityMergeStep` leaves the accumulator
unchanged: an alias match onto an entity id already present, or a
normalized-name collision. -/
def entitySkipCond (aliasMap : List (String × String))
    (acc : List MusicEntity × List String × List String) (e : MusicEntity) : Prop :=
  (∃ c, resolveArtistAlias aliasMap e.name = some c ∧ ("artist-" ++ c) ∈ acc.2.2) ∨
  normalizeArtistName e.name ∈ acc.2.1

/-- A relationship with the same `(source, target, role)` triple is already
in the list — the merge\x27s dedup condition. -/
def triplePresent (rels : List Relationship) (r : Relationship) : Prop :=
  ∃ q ∈ rels, q.source = r.source ∧ q.target = r.target ∧ q.role = r.role

/-- C5 witness candidates: a live alternate version scoring −100 and a
plain candidate whose upstream score is −5 — every adjusted score is
negative. -/
def c5CandidateLive : MBRecordingSearchResult :=
  { id := "r1", title := "A (Live)" }

def c5CandidatePlain : MBRecordingSearchResult :=
  { id := "r2", title := "B", score := some (-5) }

/-- The cache key a `setCachedTrack` input triple derives. -/
def putKey (i : String × String × Option String) : String :=
  generateCacheKey i.1 i.2.1 i.2.2

/-- The storage invariant maintained by a sequence of puts of fresh keys
starting from an empty store: the index holds the most-recent 150 of the
put keys (most recent first), and exactly those keys have stored entries. -/
def CacheInv (doneKeys : List String) (st : Storage) : Prop :=
  (st.indexSlot = some ⟨doneKeys.reverse.take MAX_CACHE_SIZE, CACHE_VERSION⟩ ∨
    (doneKeys = [] ∧ st.indexSlot = none)) ∧
  ∀ k, hasItem k st.entries = true ↔ k ∈ doneKeys.reverse.take MAX_CACHE_SIZE

/-- A dummy non-empty subgraph entity for the C6 capacity scenario. -/
def c6DummyEntity : MusicEntity :=
  { id := "e", name := "e", type := .artist }

/-- 151 put inputs with pairwise distinct derived cache keys. -/
def c6WitnessInputs : List (String × String × Option String) :=
  (List.range 151).map (fun n => ("t", "a" ++ toString n, none))

/-- A 150-key index for the C6 at-capacity eviction witness. -/
def c6WitnessIndexKeys : List String :=
  (List.range 150).map (fun n => "k" ++ toString n)

/-- A recording used by the C10 retry witness oracle. -/
def c10Result : MBRecordingSearchResult := { id := "r", title := "Song" }

/-- An oracle that returns no recordings for the cleaned query and one
recording for the original query. -/
def c10Oracle : String → Option (List MBRecordingSearchResult) :=
  fun q =>
    if q = buildRecordingQuery "Song" none none then some []
    else if q = buildRecordingQuery "Song (Live)" none none then some [c10Result]
    else none

/-! # Theorems -/

/-! ## C7: format-version mismatch handling -/

/-- One-step unfolding of `cachePairF`. -/
theorem cachePairF_succ (fuel : Nat) (st : Storage) :
    cachePairF (fuel + 1) st =
      (match st.indexSlot with
       | some idx =>
         if idx.version = CACHE_VERSION then
           some (idx, st)
         else
           match (cachePairF fuel st).2 with
           | some st1 => some (⟨[], CACHE_VERSION⟩, st1)
           | none => none
       | none => some (⟨[], CACHE_VERSION⟩, st),
       match (cachePairF fuel st).1 with
       | some (idx, st1) =>
         some { indexSlot := none,
                entries := idx.keys.foldl (fun es k => removeItem k es) st1.entries }
       | none => none) := rfl

/-- C7: whenever the persisted index's version differs from
`CACHE_VERSION`, reading the index does **not** complete: `getIndex` calls
`clearCache`, which re-reads the still-mismatched index via `getIndex`, and
the two recurse on each other without ever removing anything — for every
amount of fuel both computations are still unfinished.  This refutes the
claim's termination (and hence its clear-the-cache) guarantee. -/
theorem c7_version_mismatch_diverges (ks : List String) (v : Nat)
    (es : List (String × CachedTrack)) (hv : v ≠ CACHE_VERSION) :
    ∀ fuel, getIndexF fuel ⟨some ⟨ks, v⟩, es⟩ = none ∧
      clearCacheF fuel ⟨some ⟨ks, v⟩, es⟩ = none := by
  intro fuel
  induction fuel with
  | zero => exact ⟨rfl, rfl⟩
  | succ n ih =>
    have h1 : (cachePairF n ⟨some ⟨ks, v⟩, es⟩).1 = none := ih.1
    have h2 : (cachePairF n ⟨some ⟨ks, v⟩, es⟩).2 = none := ih.2
    constructor
    · show (cachePairF (n + 1) ⟨some ⟨ks, v⟩, es⟩).1 = none
      rw [cachePairF_succ, h2]
      simp [hv]
    · show (cachePairF (n + 1) ⟨some ⟨ks, v⟩, es⟩).2 = none
      rw [cachePairF_succ, h1]

/-- Witness for `c7_version_mismatch_diverges` at a concrete mismatched
store. -/
theorem c7_version_mismatch_diverges_witness :
    getIndexF 5 ⟨some ⟨["k"], 0⟩, [("k", ⟨[], [], 0, 0, 0⟩)]⟩ = none :=
  (c7_version_mismatch_diverges ["k"] 0 [("k", ⟨[], [], 0, 0, 0⟩)] (by decide) 5).1

/-! ## C8: 429 retry behaviour -/

/-- C8 counterexample: the claim says a 429 is retried exactly once and a
second failure is propagated.  In fact a Discogs call that receives two
consecutive 429s and then a success returns the success after **three**
attempts (the retry loop is unbounded), and a MusicBrainz call propagates a
429 immediately after **one** attempt (no retry at all). -/
theorem c8_retry_once_counterexample :
    fetchDiscogsModel 10
        [FetchOutcome.failure 429, FetchOutcome.failure 429, FetchOutcome.success "x"]
      = some (Except.ok "x", 3) ∧
    fetchMBModel (FetchOutcome.failure 429 : FetchOutcome String)
      = Except.error "MusicBrainz API error: 429" := by
  exact ⟨rfl, rfl⟩

/-- C8 amended: a Discogs 429 triggers a fixed backoff and an **unbounded**
retry loop — after any number of 429s the call returns the handling of the
first non-429 response, having issued one request per response consumed; a
MusicBrainz non-ok response (429 included) is propagated immediately with no
retry. -/
theorem c8_amended_retry_behavior {α : Type} :
    (∀ (pre : List (FetchOutcome α)) (a : α) (rs : List (FetchOutcome α)) (fuel : Nat),
       (∀ x ∈ pre, x = FetchOutcome.failure 429) → pre.length < fuel →
       fetchDiscogsModel fuel (pre ++ FetchOutcome.success a :: rs)
         = some (Except.ok a, pre.length + 1)) ∧
    (∀ (pre : List (FetchOutcome α)) (s : Nat) (rs : List (FetchOutcome α)) (fuel : Nat),
       (∀ x ∈ pre, x = FetchOutcome.failure 429) → pre.length < fuel → s ≠ 429 →
       fetchDiscogsModel fuel (pre ++ FetchOutcome.failure s :: rs)
         = some (Except.error ("Discogs API error: " ++ toString s), pre.length + 1)) ∧
    (∀ (s : Nat), fetchMBModel (FetchOutcome.failure s : FetchOutcome α)
       = Except.error ("MusicBrainz API error: " ++ toString s)) := by
  refine ⟨?_, ?_, fun s => rfl⟩
  · intro pre a rs fuel hpre hfuel
    induction pre generalizing fuel with
    | nil =>
      match fuel, hfuel with
      | f + 1, _ => rfl
    | cons x t ih =>
      have hx : x = FetchOutcome.failure 429 := hpre x (by simp)
      match fuel, hfuel with
      | f + 1, hf =>
        subst hx
        have ht : t.length < f := by simpa using hf
        have hrec := ih f (fun y hy => hpre y (List.mem_cons_of_mem _ hy)) ht
        simp only [List.cons_append, fetchDiscogsModel, List.append_eq,
          eq_self_iff_true, if_true, ite_true]
        rw [hrec]
        simp [List.length_cons]
  · intro pre s rs fuel hpre hfuel hs
    induction pre generalizing fuel with
    | nil =>
      match fuel, hfuel with
      | f + 1, _ =>
        simp only [List.nil_append, fetchDiscogsModel, if_neg hs, List.length_nil]
    | cons x t ih =>
      have hx : x = FetchOutcome.failure 429 := hpre x (by simp)
      match fuel, hfuel with
      | f + 1, hf =>
        subst hx
        have ht : t.length < f := by simpa using hf
        have hrec := ih f (fun y hy => hpre y (List.mem_cons_of_mem _ hy)) ht
        simp only [List.cons_append, fetchDiscogsModel, List.append_eq,
          eq_self_iff_true, if_true, ite_true]
        rw [hrec]
        simp [List.length_cons]

/-- Witness for `c8_amended_retry_behavior`: one 429 then a success yields
the success after two attempts; one 429 then a 500 yields the propagated
error after two attempts. -/
theorem c8_amended_retry_behavior_witness :
    fetchDiscogsModel 5 [FetchOutcome.failure 429, FetchOutcome.success "y"]
      = some (Except.ok "y", 2) ∧
    fetchDiscogsModel 5
        ([FetchOutcome.failure 429, FetchOutcome.failure 500] : List (FetchOutcome String))
      = some (Except.error "Discogs API error: 500", 2) := by
  constructor
  · exact (c8_amended_retry_behavior.1 [FetchOutcome.failure 429] "y" [] 5
      (by intro x hx; simpa using hx) (by decide))
  · exact (c8_amended_retry_behavior.2.1 [FetchOutcome.failure 429] 500 [] 5
      (by intro x hx; simpa using hx) (by decide) (by decide))

/-! ## C9: track-position scoping of supplemental credits -/

/-- C9: a Discogs release-level credit scoped to specific track positions
is merged only when the matched track's position is among the listed
positions (a listed empty position means "all tracks"); an unscoped credit
is always processed; and in the concrete scenario, credits scoped to
`tracks: "2"` merged for the track at position `"5"` contribute nothing. -/
theorem c9_track_scope_filter :
    (∀ (trackId : String) (mt : DiscogsTrack) (st : CreditState)
       (a : DiscogsArtistCredit) (tr : String),
       a.tracks = some tr →
       mt.position ∉ (splitOnComma tr).map jsTrim →
       "" ∉ (splitOnComma tr).map jsTrim →
       releaseCreditStep trackId (some mt) st a = st) ∧
    (∀ (trackId : String) (mt : DiscogsTrack) (st : CreditState)
       (a : DiscogsArtistCredit),
       a.tracks = none →
       releaseCreditStep trackId (some mt) st a = trackCreditStep trackId st a) ∧
    (getTrackCreditsFromRelease "T" (some "track-1")
       ⟨55, "Alb", [⟨"5", "T", []⟩], [⟨7, "P", some "Producer", some "2"⟩]⟩
       = ⟨[], []⟩) := by
  refine ⟨?_, ?_, by decide⟩
  · intro trackId mt st a tr htr hpos hemp
    have h1 : ((splitOnComma tr).map jsTrim).contains mt.position = false := by
      simpa using hpos
    have h2 : ((splitOnComma tr).map jsTrim).contains "" = false := by
      simpa using hemp
    simp only [releaseCreditStep, htr]
    rw [h1, h2]
    rfl
  · intro trackId mt st a htr
    simp [releaseCreditStep, htr]

/-- Witness for `c9_track_scope_filter`, discharging both hypothesis-bearing
conjuncts at concrete inputs. -/
theorem c9_track_scope_filter_witness :
    releaseCreditStep "track-1" (some ⟨"5", "T", []⟩) ([], [], [])
      ⟨7, "P", some "Producer", some "2"⟩ = ([], [], []) ∧
    releaseCreditStep "track-1" (some ⟨"5", "T", []⟩) ([], [], [])
      ⟨7, "P", some "Producer", none⟩
      = trackCreditStep "track-1" ([], [], []) ⟨7, "P", some "Producer", none⟩ := by
  constructor
  · exact c9_track_scope_filter.1 "track-1" ⟨"5", "T", []⟩ ([], [], [])
      ⟨7, "P", some "Producer", some "2"⟩ "2" rfl (by decide) (by decide)
  · exact c9_track_scope_filter.2.1 "track-1" ⟨"5", "T", []⟩ ([], [], [])
      ⟨7, "P", some "Producer", none⟩ rfl

/-! ## C2: graph invariants after the Discogs merge -/

/-- C2: the referential-integrity invariant fails.  Merging the supplemental
credit skips the artist entity (its normalized name collides with the
*track* entity's name in `existingNames`, which is built from all entities)
but still inserts its relationship without retargeting it (the name-match
retarget only searches artist entities), so the returned graph contains a
relationship whose target id matches no entity in the graph. -/
theorem c2_referential_integrity_violated :
    ∃ r ∈ (mergeDiscogsCredits [] "track-1" c2FailingState c2FailingCredits).relationships,
      r.target = "artist-discogs-7" ∧
      ∀ e ∈ (mergeDiscogsCredits [] "track-1" c2FailingState c2FailingCredits).entities,
        e.id ≠ r.target := by
  decide

/-! ## C3: alias redirection of work credits and supplemental credits -/

/-- C3: if the alias map resolves a credited name to a canonical MBID whose
entity `artist-<mbid>` is already in the graph, then (a) a work credit under
that name adds no entity, and every relationship it adds targets the
canonical id; (b) a supplemental Discogs credit under that name likewise
adds no entity and its relationship is retargeted to the canonical id; and
(c) in the concrete "Abel Tesfaye" → `artist-C` scenario the resulting
graph still has exactly one artist entity, `artist-C`, and the songwriter
relationship targets it. -/
theorem c3_alias_redirects_to_canonical :
    (∀ (aliasMap : List (String × String)) (trackId : String) (st : AssemblyState)
       (relType artistMbid name c : String),
       resolveArtistAlias aliasMap name = some c →
       c ≠ artistMbid →
       ("artist-" ++ c) ∈ st.entityIds →
       (processWorkRelation aliasMap trackId st ⟨relType, some ⟨artistMbid, name⟩⟩).entities
         = st.entities ∧
       ∀ r ∈ (processWorkRelation aliasMap trackId st
           ⟨relType, some ⟨artistMbid, name⟩⟩).relationships,
         r ∈ st.relationships ∨ r.target = "artist-" ++ c) ∧
    (∀ (aliasMap : List (String × String)) (trackId : String) (st : BuildState)
       (e : MusicEntity) (rel : Relationship) (c : String),
       resolveArtistAlias aliasMap e.name = some c →
       ("artist-" ++ c) ∈ st.entityIds →
       rel.target = e.id →
       (mergeDiscogsCredits aliasMap trackId st ⟨[e], [rel]⟩).entities = st.entities ∧
       ∀ r ∈ (mergeDiscogsCredits aliasMap trackId st ⟨[e], [rel]⟩).relationships,
         r ∈ st.relationships ∨ r.target = "artist-" ++ c) ∧
    (let st3 : AssemblyState :=
       ⟨[{ id := "track-9", name := "Song", type := .track },
         { id := "artist-C", name := "The Weeknd", type := .artist }],
        [], ["track-9", "artist-C"], ["the weeknd"]⟩
     let out := processWorkRelation [("abel tesfaye", "C")] "track-9" st3
       ⟨"writer", some ⟨"W", "Abel Tesfaye"⟩⟩
     out.entities = st3.entities ∧
     (out.entities.filter (fun e => e.type == EntityType.artist)).length = 1 ∧
     (out.entities.filter (fun e => e.type == EntityType.artist)).map
       (fun e => e.id) = ["artist-C"] ∧
     out.relationships =
       [{ id := mbRelId "track-9" "artist-C" .songwriter,
          source := "track-9", target := "artist-C", role := .songwriter }]) := by
  refine ⟨?_, ?_, by decide⟩
  · intro aliasMap trackId st relType artistMbid name c hres hne hmem
    have hid :
        (if c ≠ artistMbid then
           (if ("artist-" ++ c) ∈ st.entityIds then "artist-" ++ c
            else "artist-" ++ artistMbid)
         else (if normalizeArtistName name ∈ st.normalizedArtistNames ∧
                  ("artist-" ++ artistMbid) ∉ st.entityIds then
                 match st.entities.find? (fun e =>
                     normalizeArtistName e.name == normalizeArtistName name &&
                     e.type == EntityType.artist) with
                 | some existingArtist => existingArtist.id
                 | none => "artist-" ++ artistMbid
               else "artist-" ++ artistMbid)) = "artist-" ++ c := by
      rw [if_pos hne, if_pos hmem]
    simp only [processWorkRelation, hres, hid]
    by_cases hdup : (st.relationships.any
        (fun r => r.id == mbRelId trackId ("artist-" ++ c) (mapWorkRelationRole relType))) = true
    · rw [if_pos hdup]
      exact ⟨rfl, fun r hr => Or.inl hr⟩
    · rw [if_neg hdup]
      have hguard : ¬ (("artist-" ++ c) ∉ st.entityIds ∧
          normalizeArtistName name ∉ st.normalizedArtistNames) := by
        intro hcon
        exact hcon.1 hmem
      rw [if_neg hguard]
      refine ⟨rfl, fun r hr => ?_⟩
      rcases List.mem_append.mp hr with h | h
      · exact Or.inl h
      · simp only [List.mem_singleton] at h
        subst h
        exact Or.inr rfl
  · intro aliasMap trackId st e rel c hres hmem hrel
    have hne : ¬ ([e] : List MusicEntity).isEmpty = true := by simp
    simp only [mergeDiscogsCredits, hne, if_false]
    have hstep : entityMergeStep aliasMap
        (st.entities, st.entities.map (fun x => normalizeArtistName x.name), st.entityIds) e
        = (st.entities, st.entities.map (fun x => normalizeArtistName x.name), st.entityIds) := by
      simp only [entityMergeStep, hres]
      simp [hmem]
    simp only [List.foldl_cons, List.foldl_nil, hstep]
    refine ⟨rfl, fun r hr => ?_⟩
    have hfind : (([e] : List MusicEntity).find? (fun x => x.id == rel.target)) = some e := by
      simp [List.find?, hrel]
    have hretarget : retargetDiscogsRel aliasMap trackId [e] st.entities st.entityIds rel
        = { rel with target := "artist-" ++ c,
                     id := retargetedDiscogsRelId trackId ("artist-" ++ c) rel.role,
                     source := trackId } := by
      simp only [retargetDiscogsRel, hfind, hres]
      rw [if_pos hmem]
    simp only [List.foldl_cons, List.foldl_nil, relMergeStep, hretarget] at hr
    by_cases hdup : st.relationships.any (fun q =>
        q.source == trackId && q.target == ("artist-" ++ c) && q.role == rel.role)
    · rw [if_pos hdup] at hr
      exact Or.inl hr
    · rw [if_neg hdup] at hr
      rcases List.mem_append.mp hr with h | h
      · exact Or.inl h
      · simp only [List.mem_singleton] at h
        subst h
        exact Or.inr rfl

/-- Witness for `c3_alias_redirects_to_canonical`, applying both
hypothesis-bearing conjuncts at the "Abel Tesfaye" scenario. -/
theorem c3_alias_redirects_to_canonical_witness :
    ((processWorkRelation [("abel tesfaye", "C")] "track-9"
        ⟨[{ id := "track-9", name := "Song", type := .track },
          { id := "artist-C", name := "The Weeknd", type := .artist }],
         [], ["track-9", "artist-C"], ["the weeknd"]⟩
        ⟨"writer", some ⟨"W", "Abel Tesfaye"⟩⟩).entities
      = [{ id := "track-9", name := "Song", type := .track },
         { id := "artist-C", name := "The Weeknd", type := .artist }]) ∧
    ((mergeDiscogsCredits [("abel tesfaye", "C")] "track-9"
        ⟨[{ id := "track-9", name := "Song", type := .track },
          { id := "artist-C", name := "The Weeknd", type := .artist }],
         [], ["track-9", "artist-C"]⟩
        ⟨[{ id := "artist-discogs-3", name := "Abel Tesfaye", type := .artist }],
         [{ id := discogsRelId "track-9" "artist-discogs-3" .songwriter,
            source := "track-9", target := "artist-discogs-3", role := .songwriter }]⟩).entities
      = [{ id := "track-9", name := "Song", type := .track },
         { id := "artist-C", name := "The Weeknd", type := .artist }]) := by
  constructor
  · exact (c3_alias_redirects_to_canonical.1 [("abel tesfaye", "C")] "track-9"
      ⟨[{ id := "track-9", name := "Song", type := .track },
        { id := "artist-C", name := "The Weeknd", type := .artist }],
       [], ["track-9", "artist-C"], ["the weeknd"]⟩
      "writer" "W" "Abel Tesfaye" "C" (by decide) (by decide) (by decide)).1
  · exact (c3_alias_redirects_to_canonical.2.1 [("abel tesfaye", "C")] "track-9"
      ⟨[{ id := "track-9", name := "Song", type := .track },
        { id := "artist-C", name := "The Weeknd", type := .artist }],
       [], ["track-9", "artist-C"]⟩
      { id := "artist-discogs-3", name := "Abel Tesfaye", type := .artist }
      { id := discogsRelId "track-9" "artist-discogs-3" .songwriter,
        source := "track-9", target := "artist-discogs-3", role := .songwriter }
      "C" (by decide) (by decide) rfl).1

/-! ## C1: relationship-id derivation and merge idempotence

Helper lemmas about the two folds of `mergeDiscogsCredits`. -/

theorem entityMergeStep_skip (aliasMap : List (String × String))
    (acc : List MusicEntity × List String × List String) (e : MusicEntity)
    (h : entitySkipCond aliasMap acc e) :
    entityMergeStep aliasMap acc e = acc := by
  obtain ⟨ents, names, eids⟩ := acc
  rcases h with ⟨c, hc, hmem⟩ | hname
  · simp only [entityMergeStep, hc]
    simp [hmem]
  · simp only [entityMergeStep]
    rcases hres : resolveArtistAlias aliasMap e.name with _ | c
    · simp [hname]
    · by_cases hmem : ("artist-" ++ c) ∈ eids
      · simp [hmem]
      · simp [hmem, hname]

theorem entityMergeStep_mem_names (aliasMap : List (String × String))
    (acc : List MusicEntity × List String × List String) (e : MusicEntity)
    (x : String) (hx : x ∈ acc.2.1) : x ∈ (entityMergeStep aliasMap acc e).2.1 := by
  obtain ⟨ents, names, eids⟩ := acc
  simp only [entityMergeStep]
  rcases hres : resolveArtistAlias aliasMap e.name with _ | c <;>
    [skip; by_cases hmem : ("artist-" ++ c) ∈ eids] <;>
    by_cases hname : normalizeArtistName e.name ∈ names <;>
    simp_all [List.mem_append]

theorem entityMergeStep_mem_ids (aliasMap : List (String × String))
    (acc : List MusicEntity × List String × List String) (e : MusicEntity)
    (x : String) (hx : x ∈ acc.2.2) : x ∈ (entityMergeStep aliasMap acc e).2.2 := by
  obtain ⟨ents, names, eids⟩ := acc
  simp only [entityMergeStep]
  rcases hres : resolveArtistAlias aliasMap e.name with _ | c <;>
    [skip; by_cases hmem : ("artist-" ++ c) ∈ eids] <;>
    by_cases hname : normalizeArtistName e.name ∈ names <;>
    simp_all [List.mem_append]

theorem entityMergeStep_after (aliasMap : List (String × String))
    (acc : List MusicEntity × List String × List String) (e : MusicEntity) :
    entitySkipCond aliasMap (entityMergeStep aliasMap acc e) e := by
  obtain ⟨ents, names, eids⟩ := acc
  simp only [entitySkipCond, entityMergeStep]
  rcases hres : resolveArtistAlias aliasMap e.name with _ | c
  · by_cases hname : normalizeArtistName e.name ∈ names <;> simp_all
  · by_cases hmem : ("artist-" ++ c) ∈ eids
    · simp_all
    · by_cases hname : normalizeArtistName e.name ∈ names <;> simp_all

theorem entitySkipCond_mono (aliasMap : List (String × String))
    (acc acc' : List MusicEntity × List String × List String) (e : MusicEntity)
    (h : entitySkipCond aliasMap acc e)
    (hnames : ∀ x ∈ acc.2.1, x ∈ acc'.2.1)
    (hids : ∀ x ∈ acc.2.2, x ∈ acc'.2.2) :
    entitySkipCond aliasMap acc' e := by
  rcases h with ⟨c, hc, hmem⟩ | hname
  · exact Or.inl ⟨c, hc, hids _ hmem⟩
  · exact Or.inr (hnames _ hname)

theorem entityMergeFold_mem (aliasMap : List (String × String))
    (l : List MusicEntity) (acc : List MusicEntity × List String × List String) :
    (∀ x ∈ acc.2.1, x ∈ (l.foldl (entityMergeStep aliasMap) acc).2.1) ∧
    (∀ x ∈ acc.2.2, x ∈ (l.foldl (entityMergeStep aliasMap) acc).2.2) := by
  induction l generalizing acc with
  | nil => exact ⟨fun x hx => hx, fun x hx => hx⟩
  | cons e t ih =>
    refine ⟨fun x hx => ?_, fun x hx => ?_⟩
    · exact (ih (entityMergeStep aliasMap acc e)).1 x
        (entityMergeStep_mem_names aliasMap acc e x hx)
    · exact (ih (entityMergeStep aliasMap acc e)).2 x
        (entityMergeStep_mem_ids aliasMap acc e x hx)

theorem entityMergeFold_skipCond (aliasMap : List (String × String))
    (l : List MusicEntity) (acc : List MusicEntity × List String × List String) :
    ∀ e ∈ l, entitySkipCond aliasMap (l.foldl (entityMergeStep aliasMap) acc) e := by
  induction l generalizing acc with
  | nil => intro e he; cases he
  | cons x t ih =>
    intro e he
    rcases List.mem_cons.mp he with rfl | het
    · have h1 := entityMergeStep_after aliasMap acc e
      have hmem := entityMergeFold_mem aliasMap t (entityMergeStep aliasMap acc e)
      exact entitySkipCond_mono aliasMap _ _ e h1 hmem.1 hmem.2
    · exact ih (entityMergeStep aliasMap acc x) e het

theorem entityMergeFold_id (aliasMap : List (String × String))
    (l : List MusicEntity) (acc : List MusicEntity × List String × List String)
    (h : ∀ e ∈ l, entitySkipCond aliasMap acc e) :
    l.foldl (entityMergeStep aliasMap) acc = acc := by
  induction l with
  | nil => rfl
  | cons x t ih =>
    have hx := entityMergeStep_skip aliasMap acc x (h x (by simp))
    simp only [List.foldl_cons, hx]
    exact ih (fun e he => h e (List.mem_cons_of_mem _ he))

theorem entityMergeFold_names_eq (aliasMap : List (String × String))
    (l : List MusicEntity) (acc : List MusicEntity × List String × List String)
    (h : acc.2.1 = acc.1.map (fun e => normalizeArtistName e.name)) :
    (l.foldl (entityMergeStep aliasMap) acc).2.1
      = (l.foldl (entityMergeStep aliasMap) acc).1.map
          (fun e => normalizeArtistName e.name) := by
  induction l generalizing acc with
  | nil => exact h
  | cons e t ih =>
    refine ih (entityMergeStep aliasMap acc e) ?_
    obtain ⟨ents, names, eids⟩ := acc
    simp only [entityMergeStep]
    rcases hres : resolveArtistAlias aliasMap e.name with _ | c <;>
      simp only [hres] <;> split_ifs <;> simp_all

theorem entityMergeFold_idem (aliasMap : List (String × String))
    (l : List MusicEntity) (acc : List MusicEntity × List String × List String) :
    l.foldl (entityMergeStep aliasMap) (l.foldl (entityMergeStep aliasMap) acc)
      = l.foldl (entityMergeStep aliasMap) acc :=
  entityMergeFold_id aliasMap l _ (entityMergeFold_skipCond aliasMap l acc)

theorem any_triple_iff (rels : List Relationship) (r : Relationship) :
    (rels.any (fun q => q.source == r.source && q.target == r.target && q.role == r.role))
      = true ↔ triplePresent rels r := by
  simp [triplePresent, List.any_eq_true, and_assoc]

theorem relMergeStep_skip (aliasMap : List (String × String)) (trackId : String)
    (creditEntities ents : List MusicEntity) (eids : List String)
    (rels : List Relationship) (rel : Relationship)
    (h : triplePresent rels
      (retargetDiscogsRel aliasMap trackId creditEntities ents eids rel)) :
    relMergeStep aliasMap trackId creditEntities ents eids rels rel = rels := by
  simp only [relMergeStep]
  rw [if_pos ((any_triple_iff _ _).mpr h)]

theorem relMergeStep_mem (aliasMap : List (String × String)) (trackId : String)
    (creditEntities ents : List MusicEntity) (eids : List String)
    (rels : List Relationship) (rel q : Relationship) (hq : q ∈ rels) :
    q ∈ relMergeStep aliasMap trackId creditEntities ents eids rels rel := by
  simp only [relMergeStep]
  split_ifs
  · exact hq
  · exact List.mem_append_left _ hq

theorem relMergeStep_after (aliasMap : List (String × String)) (trackId : String)
    (creditEntities ents : List MusicEntity) (eids : List String)
    (rels : List Relationship) (rel : Relationship) :
    triplePresent (relMergeStep aliasMap trackId creditEntities ents eids rels rel)
      (retargetDiscogsRel aliasMap trackId creditEntities ents eids rel) := by
  simp only [relMergeStep]
  split_ifs with h
  · exact (any_triple_iff _ _).mp h
  · exact ⟨retargetDiscogsRel aliasMap trackId creditEntities ents eids rel,
      List.mem_append_right _ (by simp), rfl, rfl, rfl⟩

theorem triplePresent_mono (rels rels' : List Relationship) (r : Relationship)
    (h : triplePresent rels r) (hsub : ∀ q ∈ rels, q ∈ rels') :
    triplePresent rels' r := by
  obtain ⟨q, hq, hprop⟩ := h
  exact ⟨q, hsub q hq, hprop⟩

theorem relMergeFold_mem (aliasMap : List (String × String)) (trackId : String)
    (creditEntities ents : List MusicEntity) (eids : List String)
    (l : List Relationship) (rels : List Relationship) (q : Relationship)
    (hq : q ∈ rels) :
    q ∈ l.foldl (relMergeStep aliasMap trackId creditEntities ents eids) rels := by
  induction l generalizing rels with
  | nil => exact hq
  | cons x t ih =>
    exact ih _ (relMergeStep_mem aliasMap trackId creditEntities ents eids rels x q hq)

theorem relMergeFold_present (aliasMap : List (String × String)) (trackId : String)
    (creditEntities ents : List MusicEntity) (eids : List String)
    (l : List Relationship) (rels : List Relationship) :
    ∀ r ∈ l, triplePresent
      (l.foldl (relMergeStep aliasMap trackId creditEntities ents eids) rels)
      (retargetDiscogsRel aliasMap trackId creditEntities ents eids r) := by
  induction l generalizing rels with
  | nil => intro r hr; cases hr
  | cons x t ih =>
    intro r hr
    rcases List.mem_cons.mp hr with rfl | hrt
    · refine triplePresent_mono _ _ _
        (relMergeStep_after aliasMap trackId creditEntities ents eids rels r)
        (fun q hq => ?_)
      exact relMergeFold_mem aliasMap trackId creditEntities ents eids t _ q hq
    · exact ih _ r hrt

theorem relMergeFold_id (aliasMap : List (String × String)) (trackId : String)
    (creditEntities ents : List MusicEntity) (eids : List String)
    (l : List Relationship) (rels : List Relationship)
    (h : ∀ r ∈ l, triplePresent rels
      (retargetDiscogsRel aliasMap trackId creditEntities ents eids r)) :
    l.foldl (relMergeStep aliasMap trackId creditEntities ents eids) rels = rels := by
  induction l with
  | nil => rfl
  | cons x t ih =>
    have hx := relMergeStep_skip aliasMap trackId creditEntities ents eids rels x
      (h x (by simp))
    simp only [List.foldl_cons, hx]
    exact ih (fun r hr => h r (List.mem_cons_of_mem _ hr))

theorem relMergeFold_idem (aliasMap : List (String × String)) (trackId : String)
    (creditEntities ents : List MusicEntity) (eids : List String)
    (l : List Relationship) (rels : List Relationship) :
    l.foldl (relMergeStep aliasMap trackId creditEntities ents eids)
      (l.foldl (relMergeStep aliasMap trackId creditEntities ents eids) rels)
      = l.foldl (relMergeStep aliasMap trackId creditEntities ents eids) rels :=
  relMergeFold_id aliasMap trackId creditEntities ents eids l _
    (relMergeFold_present aliasMap trackId creditEntities ents eids l rels)

/-- C1 counterexample: the same `(source, target, role)` triple is given a
different id by the graph-assembly derivation and by the supplemental
(Discogs) derivation, so the relationship id is not one deterministic
function of the triple across the two creation sites. -/
theorem c1_relid_not_single_function_counterexample :
    mbRelId "track-1" "artist-2" RoleType.producer
      ≠ discogsRelId "track-1" "artist-2" RoleType.producer ∧
    mbRelId "track-1" "artist-2" RoleType.producer = "rel-track-1-artist-2-producer" ∧
    discogsRelId "track-1" "artist-2" RoleType.producer
      = "rel-discogs-track-1-artist-2-producer" := by
  refine ⟨?_, rfl, rfl⟩
  decide

/-- C1 amended: each creation site derives the relationship id
deterministically from the triple, but the derivations differ per source;
the merge instead dedups by comparing the `(source, target, role)` triple
itself, and therefore merging a supplemental source's credits into a graph
that already contains them is a no-op: applying the Discogs merge twice
with the same credits gives exactly the graph of the first merge. -/
theorem c1_merge_idempotent (aliasMap : List (String × String)) (trackId : String)
    (st : BuildState) (credits : DiscogsCredits) :
    mergeDiscogsCredits aliasMap trackId
        (mergeDiscogsCredits aliasMap trackId st credits) credits
      = mergeDiscogsCredits aliasMap trackId st credits := by
  by_cases hemp : credits.entities.isEmpty = true
  · simp [mergeDiscogsCredits, hemp]
  · rw [Bool.not_eq_true] at hemp
    simp only [mergeDiscogsCredits, hemp, Bool.false_eq_true, if_false]
    have hnames := entityMergeFold_names_eq aliasMap credits.entities
      (st.entities, st.entities.map (fun e => normalizeArtistName e.name), st.entityIds) rfl
    set P := credits.entities.foldl (entityMergeStep aliasMap)
      (st.entities, st.entities.map (fun e => normalizeArtistName e.name), st.entityIds)
      with hPdef
    have hacc : (P.1, P.1.map (fun e => normalizeArtistName e.name), P.2.2) = P := by
      rw [← hnames]
    rw [hacc]
    have hentfold : credits.entities.foldl (entityMergeStep aliasMap) P = P :=
      entityMergeFold_id aliasMap credits.entities P
        (entityMergeFold_skipCond aliasMap credits.entities _)
    rw [hentfold]
    rw [relMergeFold_idem]

/-! ## C4: album-aware scoring of recording candidates -/

theorem foldr_max_shift (l : List Int) (b c : Int) :
    l.foldr max (max b c) = max c (l.foldr max b) := by
  induction l with
  | nil => exact max_comm b c
  | cons y t ih =>
    simp only [List.foldr_cons, ih]
    rw [max_left_comm]

theorem foldl_max_map (g : MBSearchRelease → Int) (l : List MBSearchRelease) (b : Int) :
    l.foldl (fun best r => max best (g r)) b = (l.map g).foldr max b := by
  induction l generalizing b with
  | nil => rfl
  | cons x t ih =>
    simp only [List.foldl_cons, List.map_cons, List.foldr_cons]
    rw [ih (max b (g x)), foldr_max_shift]

theorem recordingReleaseSubscore_eq (album : String) (release : MBSearchRelease) :
    recordingReleaseSubscore (normalizeForComparison album) release
      = actualReleaseSubscore album release := by
  simp only [recordingReleaseSubscore, actualReleaseSubscore]
  split_ifs <;> ring

/-- C4 counterexample: at a concrete candidate whose only release is an
exact-title official Album match, the claimed sub-score is
80 + 15 (official) + 30 (Album) = 125, giving an overall claimed score of
205, while the code awards 80 + 10 (official) + 15 (Album) = 105, giving
185 — the claim's constants (+15 official, +30 Album, +10 EP, −50 special
edition, −100 default) do not match `scoreRecordingMatch`. -/
theorem c4_album_scoring_counterexample :
    scoreRecordingMatch c4Recording "Foo" "A" (some "Alb") = 185 ∧
    claimedScoreRecordingMatch c4Recording "Foo" "A" (some "Alb") = 205 ∧
    scoreRecordingMatch c4Recording "Foo" "A" (some "Alb")
      ≠ claimedScoreRecordingMatch c4Recording "Foo" "A" (some "Alb") := by
  refine ⟨by decide, by decide, by decide⟩

/-- C4 amended: when an album name is given, the candidate's overall score
is its album-free score plus the maximum over its releases of a sub-score
of +80 for an exact normalized album-title match or +40 for a
partial/substring match, +10 for official status, −60 for a
compilation/live/remix/soundtrack release, and +15 for an Album primary
type (no EP bonus and no special-edition penalty), with a −50 floor that
also serves as the default when no release matches at all. -/
theorem c4_amended_album_scoring (recording : MBRecordingSearchResult)
    (trackName artistName album : String) :
    scoreRecordingMatch recording trackName artistName (some album)
      = scoreRecordingMatch recording trackName artistName none
        + actualAlbumComponent album recording.releases := by
  simp only [scoreRecordingMatch, actualAlbumComponent]
  congr 1
  rw [foldl_max_map]
  congr 1
  exact List.map_congr_left (fun r _ => recordingReleaseSubscore_eq album r)

/-! ## C5: best-candidate selection -/

theorem insertByScoreDesc_ne_nil (x : MBRecordingSearchResult × Int)
    (l : List (MBRecordingSearchResult × Int)) : insertByScoreDesc x l ≠ [] := by
  cases l with
  | nil => simp [insertByScoreDesc]
  | cons y ys =>
    simp only [insertByScoreDesc]
    split_ifs <;> simp

theorem stableSort_eq_nil_iff (l : List (MBRecordingSearchResult × Int)) :
    stableSortByScoreDesc l = [] ↔ l = [] := by
  cases l with
  | nil => simp [stableSortByScoreDesc]
  | cons x t =>
    simp only [stableSortByScoreDesc]
    exact ⟨fun h => absurd h (insertByScoreDesc_ne_nil x _), fun h => by cases h⟩

theorem stableSort_head_spec (l : List (MBRecordingSearchResult × Int))
    (m : MBRecordingSearchResult × Int)
    (h : (stableSortByScoreDesc l).head? = some m) :
    ∃ l1 l2, l = l1 ++ m :: l2 ∧ (∀ y ∈ l, y.2 ≤ m.2) ∧ ∀ y ∈ l1, y.2 < m.2 := by
  induction l generalizing m with
  | nil => cases h
  | cons x t ih =>
    simp only [stableSortByScoreDesc] at h
    rcases hs : stableSortByScoreDesc t with _ | ⟨y, ys⟩
    · have ht : t = [] := (stableSort_eq_nil_iff t).mp hs
      rw [hs] at h
      simp only [insertByScoreDesc, List.head?] at h
      obtain rfl : x = m := by injection h
      subst ht
      exact ⟨[], [], rfl, by simp, by simp⟩
    · rw [hs] at h
      simp only [insertByScoreDesc] at h
      obtain ⟨t1, t2, hts, hall, hbefore⟩ := ih y (by rw [hs]; rfl)
      by_cases hxy : x.2 < y.2
      · rw [if_pos hxy] at h
        obtain rfl : y = m := by injection h
        refine ⟨x :: t1, t2, by rw [hts, List.cons_append], fun z hz => ?_, fun z hz => ?_⟩
        · rcases List.mem_cons.mp hz with rfl | hzt
          · exact le_of_lt hxy
          · exact hall z hzt
        · rcases List.mem_cons.mp hz with rfl | hzt
          · exact hxy
          · exact hbefore z hzt
      · rw [if_neg hxy] at h
        obtain rfl : x = m := by injection h
        push_neg at hxy
        refine ⟨[], t, rfl, fun z hz => ?_, by simp⟩
        rcases List.mem_cons.mp hz with rfl | hzt
        · exact le_refl _
        · exact le_trans (hall z hzt) hxy

/-- C5: for a non-empty candidate list the matcher returns the candidate
with the highest adjusted score — even when all adjusted scores are
negative — breaking ties by input order (the returned candidate is the
first, in input order, to attain the maximum: everything before it scores
strictly lower); the "no match" result `none` is produced exactly when the
candidate list is empty. -/
theorem c5_best_candidate_selection (recordings : List MBRecordingSearchResult)
    (trackName artistName : String) (albumName : Option String) :
    (selectBestRecording recordings trackName artistName albumName = none ↔
       recordings = []) ∧
    (∀ best, selectBestRecording recordings trackName artistName albumName = some best →
       ∃ l1 l2, recordings = l1 ++ best :: l2 ∧
         (∀ r ∈ recordings,
            scoreRecordingMatch r trackName artistName albumName
              ≤ scoreRecordingMatch best trackName artistName albumName) ∧
         ∀ r ∈ l1,
           scoreRecordingMatch r trackName artistName albumName
             < scoreRecordingMatch best trackName artistName albumName) := by
  constructor
  · constructor
    · intro h
      cases hr : recordings with
      | nil => rfl
      | cons x t =>
        rw [hr] at h
        simp only [selectBestRecording] at h
        rcases hh : (stableSortByScoreDesc
            (scoreAllRecordings (x :: t) trackName artistName albumName)).head? with _ | m
        · have hnil := (stableSort_eq_nil_iff _).mp (List.head?_eq_none_iff.mp hh)
          simp [scoreAllRecordings] at hnil
        · rw [hh] at h
          simp at h
    · intro h
      rw [h]
      rfl
  · intro best hbest
    cases hr : recordings with
    | nil =>
      rw [hr] at hbest
      simp [selectBestRecording] at hbest
    | cons x t =>
      rw [hr] at hbest
      simp only [selectBestRecording] at hbest
      rw [Option.map_eq_some'] at hbest
      obtain ⟨m, hm, hm1⟩ := hbest
      obtain ⟨s1, s2, hsplit, hall, hbefore⟩ := stableSort_head_spec _ m hm
      have hsplit2 : (x :: t).map
          (fun r => (r, scoreRecordingMatch r trackName artistName albumName))
          = s1 ++ m :: s2 := by
        simpa [scoreAllRecordings] using hsplit
      obtain ⟨l1, l2x, hl, hmap1, hmap2⟩ := (List.map_eq_append_iff).mp hsplit2
      cases l2x with
      | nil => cases hmap2
      | cons b l2 =>
        simp only [List.map_cons, List.cons.injEq] at hmap2
        obtain ⟨hb, hml2⟩ := hmap2
        have hbbest : b = best := by
          rw [← hm1, ← hb]
        subst hbbest
        have hm2 : m.2 = scoreRecordingMatch b trackName artistName albumName := by
          rw [← hb]
        refine ⟨l1, l2, hl, fun r hrr => ?_, fun r hrr => ?_⟩
        · have hmem : (r, scoreRecordingMatch r trackName artistName albumName)
              ∈ scoreAllRecordings (x :: t) trackName artistName albumName := by
            simp only [scoreAllRecordings]
            exact List.mem_map_of_mem _ hrr
          have h2 := hall _ hmem
          rw [hm2] at h2
          exact h2
        · have hmem : (r, scoreRecordingMatch r trackName artistName albumName) ∈ s1 := by
            rw [← hmap1]
            exact List.mem_map_of_mem _ hrr
          have h2 := hbefore _ hmem
          rw [hm2] at h2
          exact h2

/-- Witness for `c5_best_candidate_selection`: with two candidates whose
adjusted scores are −100 and −5, the −5 candidate is still returned. -/
theorem c5_best_candidate_selection_witness :
    ∃ l1 l2, [c5CandidateLive, c5CandidatePlain] = l1 ++ c5CandidatePlain :: l2 ∧
      (∀ r ∈ [c5CandidateLive, c5CandidatePlain],
         scoreRecordingMatch r "A" "Z" none
           ≤ scoreRecordingMatch c5CandidatePlain "A" "Z" none) ∧
      ∀ r ∈ l1,
        scoreRecordingMatch r "A" "Z" none
          < scoreRecordingMatch c5CandidatePlain "A" "Z" none :=
  (c5_best_candidate_selection [c5CandidateLive, c5CandidatePlain] "A" "Z" none).2
    c5CandidatePlain (by decide)

/-! ## C6: cache put, capacity and eviction -/

theorem getIndexF_some (fuel : Nat) (st : Storage) (idx : CacheIndex)
    (h : st.indexSlot = some idx) (hv : idx.version = CACHE_VERSION) :
    getIndexF (fuel + 1) st = some (idx, st) := by
  obtain ⟨slot, entries⟩ := st
  simp only at h
  subst h
  show (cachePairF (fuel + 1) ⟨some idx, entries⟩).1 = _
  rw [cachePairF_succ]
  simp [hv]

theorem getIndexF_none (fuel : Nat) (st : Storage) (h : st.indexSlot = none) :
    getIndexF (fuel + 1) st = some (⟨[], CACHE_VERSION⟩, st) := by
  obtain ⟨slot, entries⟩ := st
  simp only at h
  subst h
  show (cachePairF (fuel + 1) ⟨none, entries⟩).1 = _
  rw [cachePairF_succ]

theorem evictLoopAux_of_lt (n : Nat) (keys : List String)
    (es : List (String × CachedTrack)) (h : keys.length < MAX_CACHE_SIZE) :
    evictLoopAux n keys es = (keys, es) := by
  cases n with
  | zero => rfl
  | succ m => simp [evictLoopAux, Nat.not_le.mpr h]

theorem evictLoop_of_lt (keys : List String) (es : List (String × CachedTrack))
    (h : keys.length < MAX_CACHE_SIZE) : evictLoop keys es = (keys, es) :=
  evictLoopAux_of_lt _ keys es h

theorem evictLoopAux_succ (n : Nat) (keys : List String)
    (es : List (String × CachedTrack)) :
    evictLoopAux (n + 1) keys es =
      if MAX_CACHE_SIZE ≤ keys.length then
        match keys.getLast? with
        | some lastKey => evictLoopAux n keys.dropLast (removeItem lastKey es)
        | none => (keys, es)
      else (keys, es) := rfl

theorem evictLoop_of_eq (keys : List String) (es : List (String × CachedTrack))
    (lk : String) (hlen : keys.length = MAX_CACHE_SIZE)
    (hlast : keys.getLast? = some lk) :
    evictLoop keys es = (keys.dropLast, removeItem lk es) := by
  unfold evictLoop
  rw [hlen]
  show evictLoopAux (149 + 1) keys es = _
  rw [evictLoopAux_succ, if_pos (le_of_eq hlen.symm), hlast]
  apply evictLoopAux_of_lt
  rw [List.length_dropLast, hlen]
  decide

theorem hasItem_iff_mem (k : String) (es : List (String × CachedTrack)) :
    hasItem k es = true ↔ k ∈ es.map Prod.fst := by
  simp only [hasItem, List.any_eq_true, List.mem_map, decide_eq_true_eq]

theorem setItem_keys (k : String) (v : CachedTrack) (es : List (String × CachedTrack)) :
    (setItem k v es).map Prod.fst =
      if es.any (fun p => p.1 = k) then es.map Prod.fst else es.map Prod.fst ++ [k] := by
  by_cases h : es.any (fun p => p.1 = k) = true
  · rw [if_pos h]
    simp only [setItem, if_pos h, List.map_map]
    apply List.map_congr_left
    intro p _
    simp only [Function.comp]
    split_ifs with hp
    · exact hp.symm
    · rfl
  · rw [if_neg h]
    simp only [setItem, if_neg h, List.map_append, List.map_cons, List.map_nil]

theorem hasItem_setItem (k k' : String) (v : CachedTrack)
    (es : List (String × CachedTrack)) :
    (hasItem k' (setItem k v es) = true) ↔ (k' = k ∨ hasItem k' es = true) := by
  rw [hasItem_iff_mem, hasItem_iff_mem, setItem_keys]
  by_cases h : es.any (fun p => p.1 = k) = true
  · rw [if_pos h]
    constructor
    · exact Or.inr
    · rintro (rfl | hmem)
      · simp only [List.any_eq_true, decide_eq_true_eq] at h
        obtain ⟨p, hp, hpk⟩ := h
        exact hpk ▸ List.mem_map_of_mem Prod.fst hp
      · exact hmem
  · rw [if_neg h]
    rw [List.mem_append, List.mem_singleton]
    tauto

theorem hasItem_removeItem (k k' : String) (es : List (String × CachedTrack)) :
    (hasItem k' (removeItem k es) = true) ↔ (k' ≠ k ∧ hasItem k' es = true) := by
  simp only [hasItem, removeItem, List.any_eq_true, List.mem_filter,
    decide_eq_true_eq]
  constructor
  · rintro ⟨p, ⟨hp, hne⟩, rfl⟩
    exact ⟨by simpa using hne, ⟨p, hp, rfl⟩⟩
  · rintro ⟨hne, p, hp, rfl⟩
    exact ⟨p, ⟨hp, by simpa using hne⟩, rfl⟩

theorem setCachedTrackF_eq (fuel now : Nat) (trackName artistName : String)
    (albumName : Option String) (entities : List MusicEntity)
    (relationships : List Relationship) (st : Storage) (idx : CacheIndex)
    (hne : ¬ entities.length = 0)
    (hidx : getIndexF (fuel + 1) st = some (idx, st)) :
    setCachedTrackF (fuel + 1) trackName artistName albumName entities relationships now st
      = some ⟨some ⟨generateCacheKey trackName artistName albumName ::
            (evictLoop (idx.keys.erase (generateCacheKey trackName artistName albumName))
              st.entries).1, CACHE_VERSION⟩,
          setItem (generateCacheKey trackName artistName albumName)
            ⟨entities, relationships, now, now, 0⟩
            (evictLoop (idx.keys.erase (generateCacheKey trackName artistName albumName))
              st.entries).2⟩ := by
  simp only [setCachedTrackF, hidx, if_neg hne]
  rfl

theorem putStep_inv (fuel now : Nat) (ents : List MusicEntity)
    (rels : List Relationship) (hne : ¬ ents.length = 0)
    (i : String × String × Option String) (dk : List String) (st : Storage)
    (hinv : CacheInv dk st) (hnodup : (dk ++ [putKey i]).Nodup) :
    ∃ st', setCachedTrackF (fuel + 1) i.1 i.2.1 i.2.2 ents rels now st = some st' ∧
      CacheInv (dk ++ [putKey i]) st' := by
  have h150 : MAX_CACHE_SIZE = 149 + 1 := rfl
  have hdknd : dk.Nodup := hnodup.of_append_left
  have hfresh : putKey i ∉ dk := by
    have hdisj := List.disjoint_of_nodup_append hnodup
    intro hmem
    exact hdisj hmem (by simp)
  have hgi : getIndexF (fuel + 1) st
      = some (⟨dk.reverse.take MAX_CACHE_SIZE, CACHE_VERSION⟩, st) := by
    rcases hinv.1 with h | ⟨hdk, h⟩
    · exact getIndexF_some fuel st _ h rfl
    · subst hdk
      simpa using getIndexF_none fuel st h
  have hKfresh : putKey i ∉ dk.reverse.take MAX_CACHE_SIZE := by
    intro hmem
    exact hfresh (List.mem_reverse.mp (List.mem_of_mem_take hmem))
  have herase : (dk.reverse.take MAX_CACHE_SIZE).erase (putKey i)
      = dk.reverse.take MAX_CACHE_SIZE := List.erase_of_not_mem hKfresh
  have hKnodup : (dk.reverse.take MAX_CACHE_SIZE).Nodup :=
    (List.nodup_reverse.mpr hdknd).sublist (List.take_sublist _ _)
  have hKlen : (dk.reverse.take MAX_CACHE_SIZE).length ≤ MAX_CACHE_SIZE := by
    rw [List.length_take]
    exact min_le_left _ _
  have hrevapp : (dk ++ [putKey i]).reverse = putKey i :: dk.reverse := by
    rw [List.reverse_append]
    rfl
  have heq := setCachedTrackF_eq fuel now i.1 i.2.1 i.2.2 ents rels st _ hne hgi
  have hpk : generateCacheKey i.1 i.2.1 i.2.2 = putKey i := rfl
  dsimp only at heq
  rw [hpk, herase] at heq
  rcases lt_or_eq_of_le hKlen with hlt | hcap
  · -- below capacity: no eviction
    rw [evictLoop_of_lt _ _ hlt] at heq
    dsimp only at heq
    have hsmall : dk.length < MAX_CACHE_SIZE := by
      rw [List.length_take, List.length_reverse] at hlt
      rcases Nat.lt_or_ge dk.length MAX_CACHE_SIZE with h | h
      · exact h
      · rw [min_eq_left h] at hlt
        exact absurd hlt (lt_irrefl _)
    have htake : ∀ n, dk.length ≤ n → dk.reverse.take n = dk.reverse := fun n hn =>
      List.take_of_length_le (by rw [List.length_reverse]; exact hn)
    have hmru : (dk ++ [putKey i]).reverse.take MAX_CACHE_SIZE
        = putKey i :: dk.reverse.take MAX_CACHE_SIZE := by
      have h149 : dk.length ≤ 149 := by
        rw [h150] at hsmall
        omega
      rw [hrevapp, h150, List.take_succ_cons, htake 149 h149, ← h150,
        htake MAX_CACHE_SIZE (le_of_lt hsmall)]
    refine ⟨_, heq, ?_, ?_⟩
    · left
      rw [hmru]
    · intro k
      rw [hmru]
      simp only [List.mem_cons]
      rw [hasItem_setItem]
      rw [hinv.2 k]
  · -- at capacity: the last (LRU) key is evicted first
    have hKne : dk.reverse.take MAX_CACHE_SIZE ≠ [] := by
      intro hnil
      rw [hnil] at hcap
      simp [MAX_CACHE_SIZE] at hcap
    have hlast := List.getLast?_eq_getLast _ hKne
    rw [evictLoop_of_eq _ _ _ hcap hlast] at heq
    dsimp only at heq
    have hdklarge : MAX_CACHE_SIZE ≤ dk.length := by
      rw [List.length_take, List.length_reverse] at hcap
      rcases Nat.lt_or_ge dk.length MAX_CACHE_SIZE with h | h
      · rw [min_eq_right (le_of_lt h)] at hcap
        exact absurd hcap (Nat.ne_of_lt h)
      · exact h
    have hdrop : (dk.reverse.take MAX_CACHE_SIZE).dropLast = dk.reverse.take 149 := by
      rw [List.dropLast_eq_take, List.length_take, List.length_reverse,
        min_eq_left hdklarge, h150]
      rw [List.take_take]
      norm_num
    have hmru : (dk ++ [putKey i]).reverse.take MAX_CACHE_SIZE
        = putKey i :: dk.reverse.take 149 := by
      rw [hrevapp, h150, List.take_succ_cons]
    have hKsplit : (dk.reverse.take MAX_CACHE_SIZE).dropLast
        ++ [(dk.reverse.take MAX_CACHE_SIZE).getLast hKne]
        = dk.reverse.take MAX_CACHE_SIZE := List.dropLast_append_getLast hKne
    have hlknot : (dk.reverse.take MAX_CACHE_SIZE).getLast hKne
        ∉ (dk.reverse.take MAX_CACHE_SIZE).dropLast := by
      have hnd := hKnodup
      rw [← hKsplit] at hnd
      have hdisj := List.disjoint_of_nodup_append hnd
      intro hmem
      exact hdisj hmem (by simp)
    refine ⟨_, heq, ?_, ?_⟩
    · left
      rw [hmru, hdrop]
    · intro k
      rw [hmru, ← hdrop]
      simp only [List.mem_cons]
      rw [hasItem_setItem, hasItem_removeItem]
      rw [hinv.2 k]
      constructor
      · rintro (rfl | ⟨hne2, hmem⟩)
        · exact Or.inl rfl
        · right
          rw [← hKsplit, List.mem_append] at hmem
          rcases hmem with hmem | hmem
          · exact hmem
          · simp only [List.mem_singleton] at hmem
            exact absurd hmem hne2
      · rintro (rfl | hmem)
        · exact Or.inl rfl
        · right
          constructor
          · intro hkeq
            rw [hkeq] at hmem
            exact hlknot hmem
          · rw [← hKsplit, List.mem_append]
            exact Or.inl hmem

theorem putSeq_inv (fuel now : Nat) (ents : List MusicEntity)
    (rels : List Relationship) (hne : ¬ ents.length = 0) :
    ∀ (inputs : List (String × String × Option String)) (dk : List String) (st : Storage),
      CacheInv dk st → (dk ++ inputs.map putKey).Nodup →
      ∃ st', putSeqF (fuel + 1) now ents rels inputs st = some st' ∧
        CacheInv (dk ++ inputs.map putKey) st' := by
  intro inputs
  induction inputs with
  | nil =>
    intro dk st hinv _
    exact ⟨st, rfl, by simpa using hinv⟩
  | cons i rest ih =>
    intro dk st hinv hnd
    have hnd2 : ((dk ++ [putKey i]) ++ rest.map putKey).Nodup := by
      rw [List.append_assoc]
      simpa using hnd
    have hnd1 : (dk ++ [putKey i]).Nodup := hnd2.of_append_left
    obtain ⟨st1, hput, hinv1⟩ := putStep_inv fuel now ents rels hne i dk st hinv hnd1
    obtain ⟨st', hrest, hinv'⟩ := ih (dk ++ [putKey i]) st1 hinv1 hnd2
    refine ⟨st', ?_, ?_⟩
    · simp only [putSeqF, List.foldlM_cons]
      rw [show setCachedTrackF (fuel + 1) i.1 i.2.1 i.2.2 ents rels now st = some st1
        from hput]
      exact hrest
    · rw [List.map_cons, show dk ++ putKey i :: rest.map putKey
        = (dk ++ [putKey i]) ++ rest.map putKey by simp]
      exact hinv'

theorem getCacheStatsF_trackCount (fuel : Nat) (st : Storage) (idx : CacheIndex)
    (h : st.indexSlot = some idx) (hv : idx.version = CACHE_VERSION) :
    ∃ cs, getCacheStatsF (fuel + 1) st = some cs ∧ cs.trackCount = idx.keys.length := by
  simp only [getCacheStatsF, getIndexF_some fuel st idx h hv]
  exact ⟨_, rfl, rfl⟩

/-- C6: (a) `setCachedTrack` refuses to store an empty subgraph, leaving
the store unchanged; (b) when the index is at its 150-key capacity, putting
a fresh key first evicts the least-recently-used entry — the last key of
the MRU-first order, removing both its stored entry and its index key — and
then inserts the new key at the front; (c) after 151 puts with distinct
keys starting from an empty store, `stats().trackCount` is 150 and the
very first key inserted is absent from both the index and the stored
entries. -/
theorem c6_cache_put_capacity :
    (∀ (fuel now : Nat) (trackName artistName : String) (albumName : Option String)
       (rels : List Relationship) (st : Storage),
       setCachedTrackF fuel trackName artistName albumName [] rels now st = some st) ∧
    (∀ (fuel now : Nat) (trackName artistName : String) (albumName : Option String)
       (ents : List MusicEntity) (rels : List Relationship) (st : Storage)
       (idx : CacheIndex) (lk : String),
       ¬ ents.length = 0 →
       st.indexSlot = some idx →
       idx.version = CACHE_VERSION →
       idx.keys.length = MAX_CACHE_SIZE →
       idx.keys.getLast? = some lk →
       generateCacheKey trackName artistName albumName ∉ idx.keys →
       setCachedTrackF (fuel + 1) trackName artistName albumName ents rels now st
         = some ⟨some ⟨generateCacheKey trackName artistName albumName ::
               idx.keys.dropLast, CACHE_VERSION⟩,
             setItem (generateCacheKey trackName artistName albumName)
               ⟨ents, rels, now, now, 0⟩ (removeItem lk st.entries)⟩) ∧
    (∀ (now : Nat) (ents : List MusicEntity) (rels : List Relationship)
       (inputs : List (String × String × Option String)) (k0 : String)
       (krest : List String),
       ¬ ents.length = 0 →
       (inputs.map putKey).Nodup →
       inputs.map putKey = k0 :: krest →
       krest.length = MAX_CACHE_SIZE →
       ∃ st' cs idx, putSeqF 1 now ents rels inputs Storage.empty = some st' ∧
         getCacheStatsF 1 st' = some cs ∧ cs.trackCount = MAX_CACHE_SIZE ∧
         st'.indexSlot = some idx ∧ k0 ∉ idx.keys ∧
         hasItem k0 st'.entries = false) := by
  refine ⟨?_, ?_, ?_⟩
  · intro fuel now trackName artistName albumName rels st
    simp [setCachedTrackF]
  · intro fuel now trackName artistName albumName ents rels st idx lk
      hne hidx hv hlen hlast hfresh
    have hgi := getIndexF_some fuel st idx hidx hv
    have heq := setCachedTrackF_eq fuel now trackName artistName albumName ents rels st
      idx hne hgi
    rw [List.erase_of_not_mem hfresh] at heq
    rw [evictLoop_of_eq _ _ _ hlen hlast] at heq
    exact heq
  · intro now ents rels inputs k0 krest hne hnodup hkeys hlen
    have hinv0 : CacheInv [] Storage.empty := by
      constructor
      · right
        exact ⟨rfl, rfl⟩
      · intro k
        simp [hasItem, Storage.empty]
    obtain ⟨st', hput, hinv⟩ := putSeq_inv 0 now ents rels hne inputs [] Storage.empty
      hinv0 (by simpa using hnodup)
    simp only [List.nil_append] at hinv
    rw [hkeys] at hinv
    have hmru : (k0 :: krest).reverse.take MAX_CACHE_SIZE = krest.reverse := by
      rw [List.reverse_cons]
      rw [show MAX_CACHE_SIZE = krest.reverse.length by rw [List.length_reverse, hlen]]
      exact List.take_left _ _
    simp only [CacheInv] at hinv
    rw [hmru] at hinv
    have hk0 : k0 ∉ krest.reverse := by
      rw [hkeys] at hnodup
      intro hmem
      exact (List.nodup_cons.mp hnodup).1 (List.mem_reverse.mp hmem)
    have hidx : st'.indexSlot = some ⟨krest.reverse, CACHE_VERSION⟩ := by
      rcases hinv.1 with h | ⟨hnil, _⟩
      · exact h
      · cases hnil
    obtain ⟨cs, hcs, hcount⟩ := getCacheStatsF_trackCount 0 st' _ hidx rfl
    refine ⟨st', cs, ⟨krest.reverse, CACHE_VERSION⟩, hput, hcs, ?_, hidx, hk0, ?_⟩
    · rw [hcount]
      simp only [List.length_reverse]
      exact hlen
    · rcases hb : hasItem k0 st'.entries with _ | _
      · rfl
      · exact absurd ((hinv.2 k0).mp hb) hk0

set_option maxRecDepth 40000 in
/-- Witness for `c6_cache_put_capacity`, discharging all three conjuncts at
concrete inputs. -/
theorem c6_cache_put_capacity_witness :
    (setCachedTrackF 5 "t" "a" none [] [] 0 Storage.empty = some Storage.empty) ∧
    (setCachedTrackF 1 "t" "a" none [c6DummyEntity] [] 0
        ⟨some ⟨c6WitnessIndexKeys, CACHE_VERSION⟩, []⟩
      = some ⟨some ⟨generateCacheKey "t" "a" none :: c6WitnessIndexKeys.dropLast,
            CACHE_VERSION⟩,
          setItem (generateCacheKey "t" "a" none) ⟨[c6DummyEntity], [], 0, 0, 0⟩
            (removeItem "k149" [])⟩) ∧
    (∃ st' cs idx, putSeqF 1 0 [c6DummyEntity] [] c6WitnessInputs Storage.empty = some st' ∧
       getCacheStatsF 1 st' = some cs ∧ cs.trackCount = MAX_CACHE_SIZE ∧
       st'.indexSlot = some idx ∧ putKey ("t", "a0", none) ∉ idx.keys ∧
       hasItem (putKey ("t", "a0", none)) st'.entries = false) := by
  refine ⟨c6_cache_put_capacity.1 5 0 "t" "a" none [] Storage.empty, ?_, ?_⟩
  · exact c6_cache_put_capacity.2.1 0 0 "t" "a" none [c6DummyEntity] []
      ⟨some ⟨c6WitnessIndexKeys, CACHE_VERSION⟩, []⟩ ⟨c6WitnessIndexKeys, CACHE_VERSION⟩
      "k149" (by decide) rfl rfl (by decide) (by decide) (by decide)
  · exact c6_cache_put_capacity.2.2 0 [c6DummyEntity] [] c6WitnessInputs
      (putKey ("t", "a0", none)) ((c6WitnessInputs.map putKey).tail)
      (by decide) (by decide) (by decide) (by decide)

/-- C10: before querying the catalog, the recording search strips
featured-artist markers (feat./ft./featuring in parentheses, brackets,
after a dash, or at the end), version suffixes such as (Live),
(LP Version), (Radio Edit), (Remaster), and a trailing `From <album>`
phrase from the requested title, and searches with the cleaned title; if
the cleaned query returns zero recordings and the cleaned title differs
from the original, the search is retried exactly once with the original
unmodified title (and is not retried otherwise). -/
theorem c10_clean_and_retry :
    (cleanTrackName "If They Knew (Feat. K. Michelle)" = "If They Knew" ∧
     cleanTrackName "Song [ft. X]" = "Song" ∧
     cleanTrackName "Song - feat. Someone" = "Song" ∧
     cleanTrackName "Song featuring X" = "Song" ∧
     cleanTrackName "Track (Live)" = "Track" ∧
     cleanTrackName "Warm (LP Version)" = "Warm" ∧
     cleanTrackName "Track (Radio Edit)" = "Track" ∧
     cleanTrackName "Track (Remaster)" = "Track" ∧
     cleanTrackName "Warm (LP Version) From Change Of Heart" = "Warm") ∧
    (∀ (oracle : String → Option (List MBRecordingSearchResult))
       (t : String) (a al : Option String),
      (cleanTrackName t ≠ t →
        oracle (buildRecordingQuery (cleanTrackName t) a al) = some [] →
        searchRecordingModel oracle t a al =
          ((oracle (buildRecordingQuery t a al)).getD [], 2)) ∧
      (oracle (buildRecordingQuery (cleanTrackName t) a al) ≠ some [] →
        searchRecordingModel oracle t a al =
          ((oracle (buildRecordingQuery (cleanTrackName t) a al)).getD [], 1)) ∧
      (cleanTrackName t = t →
        searchRecordingModel oracle t a al =
          ((oracle (buildRecordingQuery t a al)).getD [], 1))) := by
  constructor
  · exact ⟨by decide, by decide, by decide, by decide, by decide, by decide,
      by decide, by decide, by decide⟩
  · intro oracle t a al
    refine ⟨?_, ?_, ?_⟩
    · intro hne hz
      simp only [searchRecordingModel]
      split_ifs with h
      · rfl
      · exact absurd ⟨hz, hne⟩ h
    · intro hnz
      simp only [searchRecordingModel]
      split_ifs with h
      · exact absurd h.1 hnz
      · rfl
    · intro heq
      simp only [searchRecordingModel]
      split_ifs with h
      · exact absurd heq h.2
      · rw [heq]

/-- Witness for `c10_clean_and_retry`: with an oracle that has no results
for the cleaned title "Song" but one result for the original
"Song (Live)", the search retries with the original title and performs
exactly two searches. -/
theorem c10_clean_and_retry_witness :
    searchRecordingModel c10Oracle "Song (Live)" none none = ([c10Result], 2) := by
  have h := (c10_clean_and_retry.2 c10Oracle "Song (Live)" none none).1
    (by decide) (by decide)
  rw [h]
  decide

end SongLines
